import Mathlib

/-!
Shallow embedding of the packet-ts binary codec: the append-based
`PacketWriter` (src/src/PacketWriter.ts) and the cursor-based
`PacketReader` (the unnamed reader source file).

Modelling conventions
* A JS `Uint8Array` / growable byte buffer is a `List Nat` whose entries
  are bytes (every byte the writer ever appends is masked to `< 256`).
* JS integer `number`s handed to the writer are modelled as `Nat` for the
  unsigned writes and `Int` for the signed writes; the JS coercion
  `ToInt32`/`ToUint32` wraps modulo `2 ^ 32` before the bitwise ops, and
  because `256 ∣ 2 ^ 32` the extracted bytes `(v >> 8*i) & 0xFF` agree
  with the `Nat` computation for every nonnegative integer input.
* The reader's cursor `offset` is an `Int`: the TS field is a JS number
  and `readBytes` with a negative caller-supplied length can drive it
  below zero, which the model must be able to represent.
* IEEE-754 floats are modelled by their bit patterns: `setFloat32` /
  `getFloat32` move the 4 (resp. 8) little-endian bytes of the pattern
  unchanged, so `writeFloat32`/`readFloat32` take and return the pattern.
* JS strings are modelled as lists of Unicode scalar values.
  `TextEncoder.encode` is standard UTF-8 (`utf8Encode` below);
  `new TextDecoder('utf-8').decode` is the WHATWG decoder with U+FFFD
  substitution on malformed input and, per the default
  `ignoreBOM: false`, removal of a leading byte-order mark
  (`utf8Decode` below).
* A TS method that can `throw` is embedded as a function returning
  `Except String α × PacketReader`: the second component is the state of
  the object after the call, whether or not it threw (a thrown JS
  exception does not roll back earlier field mutations).
-/

/-- Unicode scalar values: code points below 0x110000 that are not
UTF-16 surrogates. JS strings handed to `TextEncoder` denote sequences
of such scalars (lone surrogates are substituted before encoding). -/
def ValidScalar (c : Nat) : Prop := c < 1114112 ∧ (c < 55296 ∨ 57343 < c)

instance (c : Nat) : Decidable (ValidScalar c) := by
  unfold ValidScalar; infer_instance

/-- Standard UTF-8 encoding of one Unicode scalar value, as emitted by
`TextEncoder` (1 to 4 bytes, depending on the scalar's magnitude). -/
def utf8EncodeChar (c : Nat) : List Nat :=
  if c < 128 then [c]
  else if c < 2048 then [192 + c / 64, 128 + c % 64]
  else if c < 65536 then [224 + c / 4096, 128 + c / 64 % 64, 128 + c % 64]
  else [240 + c / 262144, 128 + c / 4096 % 64, 128 + c / 64 % 64, 128 + c % 64]

/-- `TextEncoder.encode`: concatenated UTF-8 encodings of the scalars. -/
def utf8Encode : List Nat → List Nat
  | [] => []
  | c :: cs => utf8EncodeChar c ++ utf8Encode cs

/-- The WHATWG UTF-8 decoder's handling of a byte in the initial state
(no sequence pending): the scalars emitted for that byte, and the
continuation state it installs — bytes still needed, the partial code
point, and the inclusive bounds the next continuation byte must satisfy
(the E0/ED/F0/F4 special ranges reject overlongs and surrogates). -/
def utf8Lead (b : Nat) : List Nat × Nat × Nat × Nat × Nat :=
  if b < 128 then ([b], 0, 0, 128, 191)
  else if 194 ≤ b ∧ b ≤ 223 then ([], 1, b - 192, 128, 191)
  else if 224 ≤ b ∧ b ≤ 239 then
    ([], 2, b - 224, if b = 224 then 160 else 128, if b = 237 then 159 else 191)
  else if 240 ≤ b ∧ b ≤ 244 then
    ([], 3, b - 240, if b = 240 then 144 else 128, if b = 244 then 143 else 191)
  else ([65533], 0, 0, 128, 191)

/-- The WHATWG UTF-8 decoder loop, one byte at a time.  `needed` is the
number of continuation bytes still expected, `cp` the partial code
point, `lo`/`hi` the bounds on the next continuation byte.  A malformed
or truncated sequence yields U+FFFD = 65533; an invalid continuation
byte is reprocessed from the initial state, as the WHATWG algorithm
restores it to the stream. -/
def utf8DecodeLoop : Nat → Nat → Nat → Nat → List Nat → List Nat
  | needed, _, _, _, [] => if needed = 0 then [] else [65533]
  | needed, cp, lo, hi, b :: bs =>
    if needed = 0 then
      (utf8Lead b).1 ++ utf8DecodeLoop (utf8Lead b).2.1 (utf8Lead b).2.2.1
        (utf8Lead b).2.2.2.1 (utf8Lead b).2.2.2.2 bs
    else if lo ≤ b ∧ b ≤ hi then
      if needed = 1 then (cp * 64 + (b - 128)) :: utf8DecodeLoop 0 0 128 191 bs
      else utf8DecodeLoop (needed - 1) (cp * 64 + (b - 128)) 128 191 bs
    else
      65533 :: ((utf8Lead b).1 ++ utf8DecodeLoop (utf8Lead b).2.1 (utf8Lead b).2.2.1
        (utf8Lead b).2.2.2.1 (utf8Lead b).2.2.2.2 bs)

/-- `new TextDecoder('utf-8').decode` with the default options: the
WHATWG loop with U+FFFD substitution, preceded by the default
`ignoreBOM: false` handling — a leading byte-order mark EF BB BF is
removed from the stream before decoding (a BOM anywhere else, or a
partial one, is decoded normally). -/
def utf8Decode (bs : List Nat) : List Nat :=
  if bs.take 3 = [239, 187, 191] then utf8DecodeLoop 0 0 128 191 (bs.drop 3)
  else utf8DecodeLoop 0 0 128 191 bs

/-- The encoder: a growable byte buffer plus the packet id captured at
construction (class `PacketWriter` in src/src/PacketWriter.ts). -/
structure PacketWriter where
  buffer : List Nat
  packetId : Nat
deriving DecidableEq

/-- `writeUInt8`: push `value & 0xFF`. -/
def PacketWriter.writeUInt8 (w : PacketWriter) (value : Nat) : PacketWriter :=
  { w with buffer := w.buffer ++ [value &&& 255] }

/-- `writeUInt16`: push the two little-endian bytes
`value & 0xFF`, `(value >> 8) & 0xFF`. -/
def PacketWriter.writeUInt16 (w : PacketWriter) (value : Nat) : PacketWriter :=
  { w with buffer := w.buffer ++ [value &&& 255, (value >>> 8) &&& 255] }

/-- `writeUInt32`: push the four little-endian bytes `(value >> 8*i) & 0xFF`. -/
def PacketWriter.writeUInt32 (w : PacketWriter) (value : Nat) : PacketWriter :=
  { w with buffer := w.buffer ++
      [value &&& 255, (value >>> 8) &&& 255, (value >>> 16) &&& 255, (value >>> 24) &&& 255] }

/-- `writeUInt64`: the loop pushes `Number((bigValue >> BigInt(i*8)) & 0xFF)`
for `i = 0..7`. -/
def PacketWriter.writeUInt64 (w : PacketWriter) (value : Nat) : PacketWriter :=
  { w with buffer := w.buffer ++ (List.range 8).map (fun i => (value >>> (i * 8)) &&& 255) }

/-- Little-endian byte expansion used by the `DataView`-based writes:
`n` bytes of the nonnegative integer `v`. -/
def leBytes (n : Nat) (v : Nat) : List Nat :=
  (List.range n).map (fun i => v / 256 ^ i % 256)

/-- `writeInt32`: `DataView.setInt32(…, true)` stores the 4 little-endian
bytes of the two's-complement pattern, i.e. of `value mod 2 ^ 32`. -/
def PacketWriter.writeInt32 (w : PacketWriter) (value : Int) : PacketWriter :=
  { w with buffer := w.buffer ++ leBytes 4 ((value % 4294967296).toNat) }

/-- `writeInt64`: `DataView.setBigInt64(…, true)` stores the 8
little-endian bytes of `value mod 2 ^ 64`. -/
def PacketWriter.writeInt64 (w : PacketWriter) (value : Int) : PacketWriter :=
  { w with buffer := w.buffer ++ leBytes 8 ((value % 18446744073709551616).toNat) }

/-- `writeFloat32`: `DataView.setFloat32(…, true)` stores the 4
little-endian bytes of the IEEE-754 single bit pattern. -/
def PacketWriter.writeFloat32 (w : PacketWriter) (bits : Nat) : PacketWriter :=
  { w with buffer := w.buffer ++ leBytes 4 bits }

/-- `writeFloat64`: the 8 little-endian bytes of the double bit pattern. -/
def PacketWriter.writeFloat64 (w : PacketWriter) (bits : Nat) : PacketWriter :=
  { w with buffer := w.buffer ++ leBytes 8 bits }

/-- `writeBool`: one byte, `0x01` for true and `0x00` for false. -/
def PacketWriter.writeBool (w : PacketWriter) (value : Bool) : PacketWriter :=
  { w with buffer := w.buffer ++ [if value then 1 else 0] }

/-- `writeBytes`: append the raw bytes verbatim, no length prefix. -/
def PacketWriter.writeBytes (w : PacketWriter) (bytes : List Nat) : PacketWriter :=
  { w with buffer := w.buffer ++ bytes }

/-- `writeString`: `writeUInt16(utf8Bytes.length)` followed by pushing
the UTF-8 bytes themselves. -/
def PacketWriter.writeString (w : PacketWriter) (value : List Nat) : PacketWriter :=
  let utf8Bytes := utf8Encode value
  let w1 := w.writeUInt16 utf8Bytes.length
  { w1 with buffer := w1.buffer ++ utf8Bytes }

/-- The constructor: record `packetId` and immediately `writeUInt16` it,
so the id is serialized before any caller-issued write. -/
def PacketWriter.new (packetId : Nat) : PacketWriter :=
  (PacketWriter.mk [] packetId).writeUInt16 packetId

/-- `getBytes`: a fresh array holding the 2-byte little-endian length of
the current buffer (header excluded from the count) followed by the
buffer contents. -/
def PacketWriter.getBytes (w : PacketWriter) : List Nat :=
  [w.buffer.length &&& 255, (w.buffer.length >>> 8) &&& 255] ++ w.buffer

/-- `getData`: a copy of the current buffer, no header. -/
def PacketWriter.getData (w : PacketWriter) : List Nat :=
  w.buffer

/-- `getPacketId`: the id captured at construction. -/
def PacketWriter.getPacketId (w : PacketWriter) : Nat :=
  w.packetId

/-- `getBytes` as a state transformer: the method body reads
`this.buffer` but assigns no field, so the receiver is unchanged. -/
def PacketWriter.getBytesS (w : PacketWriter) : List Nat × PacketWriter :=
  (w.getBytes, w)

/-- `getData` as a state transformer (no field assignment). -/
def PacketWriter.getDataS (w : PacketWriter) : List Nat × PacketWriter :=
  (w.getData, w)

/-- `getPacketId` as a state transformer (no field assignment). -/
def PacketWriter.getPacketIdS (w : PacketWriter) : Nat × PacketWriter :=
  (w.getPacketId, w)

/-- The decoder: an immutable byte buffer plus a mutable cursor
(class `PacketReader`). -/
structure PacketReader where
  data : List Nat
  offset : Int
deriving DecidableEq

/-- The constructor wraps the given bytes and starts the cursor at 0. -/
def PacketReader.new (data : List Nat) : PacketReader :=
  PacketReader.mk data 0

/-- `this.data[i]` for an in-range index; out-of-range access cannot be
reached on the guarded paths the theorems traverse. -/
def PacketReader.byte (r : PacketReader) (i : Int) : Nat :=
  r.data.getD i.toNat 0

/-- `Uint8Array.prototype.slice(start, stop)`: negative arguments count
from the end, both endpoints clamp to `[0, length]`. -/
def jsSlice (l : List Nat) (start stop : Int) : List Nat :=
  let n : Int := l.length
  let s : Int := if start < 0 then max (n + start) 0 else min start n
  let e : Int := if stop < 0 then max (n + stop) 0 else min stop n
  (l.drop s.toNat).take (e - s).toNat

/-- `readUInt8`: bounds check, then return the byte and advance by 1. -/
def PacketReader.readUInt8 (r : PacketReader) : Except String Nat × PacketReader :=
  if r.offset + 1 > (r.data.length : Int) then
    (Except.error ("PacketReader: Not enough data to read UInt8"), r)
  else
    (Except.ok (r.byte r.offset), { r with offset := r.offset + 1 })

/-- `readUInt16`: `data[o] | (data[o+1] << 8)`, advance by 2.  On bytes
the int32 bitwise ops agree with the `Nat` ops used here. -/
def PacketReader.readUInt16 (r : PacketReader) : Except String Nat × PacketReader :=
  if r.offset + 2 > (r.data.length : Int) then
    (Except.error ("PacketReader: Not enough data to read UInt16"), r)
  else
    (Except.ok (r.byte r.offset ||| (r.byte (r.offset + 1)) <<< 8),
      { r with offset := r.offset + 2 })

/-- `readUInt32`: or-together the four shifted bytes, advance by 4.  The
trailing `>>> 0` in the source undoes the int32 sign wrap; on bytes the
result is exactly the unsigned value computed here. -/
def PacketReader.readUInt32 (r : PacketReader) : Except String Nat × PacketReader :=
  if r.offset + 4 > (r.data.length : Int) then
    (Except.error ("PacketReader: Not enough data to read UInt32"), r)
  else
    (Except.ok (r.byte r.offset ||| (r.byte (r.offset + 1)) <<< 8 |||
        (r.byte (r.offset + 2)) <<< 16 ||| (r.byte (r.offset + 3)) <<< 24),
      { r with offset := r.offset + 4 })

/-- `readUInt64`: the loop ors in `BigInt(data[o+i]) << BigInt(i*8)` for
`i = 0..7`, then advances by 8. -/
def PacketReader.readUInt64 (r : PacketReader) : Except String Nat × PacketReader :=
  if r.offset + 8 > (r.data.length : Int) then
    (Except.error ("PacketReader: Not enough data to read UInt64"), r)
  else
    (Except.ok ((List.range 8).foldl
        (fun value (i : Nat) => value ||| (r.byte (r.offset + (i : Int))) <<< (i * 8)) 0),
      { r with offset := r.offset + 8 })

/-- `readInt32`: `DataView.getInt32(…, true)` reads the unsigned
little-endian value and reinterprets it as two's complement. -/
def PacketReader.readInt32 (r : PacketReader) : Except String Int × PacketReader :=
  if r.offset + 4 > (r.data.length : Int) then
    (Except.error ("PacketReader: Not enough data to read Int32"), r)
  else
    let u : Nat := r.byte r.offset ||| (r.byte (r.offset + 1)) <<< 8 |||
      (r.byte (r.offset + 2)) <<< 16 ||| (r.byte (r.offset + 3)) <<< 24
    (Except.ok ((u : Int) - (if 2147483648 ≤ u then 4294967296 else 0)),
      { r with offset := r.offset + 4 })

/-- `readInt64`: `DataView.getBigInt64(…, true)`, two's complement over
8 little-endian bytes. -/
def PacketReader.readInt64 (r : PacketReader) : Except String Int × PacketReader :=
  if r.offset + 8 > (r.data.length : Int) then
    (Except.error ("PacketReader: Not enough data to read Int64"), r)
  else
    let u : Nat := (List.range 8).foldl
      (fun value (i : Nat) => value ||| (r.byte (r.offset + (i : Int))) <<< (i * 8)) 0
    (Except.ok ((u : Int) - (if 9223372036854775808 ≤ u then 18446744073709551616 else 0)),
      { r with offset := r.offset + 8 })

/-- `readFloat32`: `DataView.getFloat32(…, true)` reads back the 4-byte
little-endian IEEE-754 single pattern, modelled as that pattern. -/
def PacketReader.readFloat32 (r : PacketReader) : Except String Nat × PacketReader :=
  if r.offset + 4 > (r.data.length : Int) then
    (Except.error ("PacketReader: Not enough data to read Float32"), r)
  else
    (Except.ok (r.byte r.offset ||| (r.byte (r.offset + 1)) <<< 8 |||
        (r.byte (r.offset + 2)) <<< 16 ||| (r.byte (r.offset + 3)) <<< 24),
      { r with offset := r.offset + 4 })

/-- `readFloat64`: the 8-byte little-endian double pattern. -/
def PacketReader.readFloat64 (r : PacketReader) : Except String Nat × PacketReader :=
  if r.offset + 8 > (r.data.length : Int) then
    (Except.error ("PacketReader: Not enough data to read Float64"), r)
  else
    (Except.ok ((List.range 8).foldl
        (fun value (i : Nat) => value ||| (r.byte (r.offset + (i : Int))) <<< (i * 8)) 0),
      { r with offset := r.offset + 8 })

/-- `readBool`: `readUInt8() !== 0` — note the bounds-check failure is
readUInt8's own, with readUInt8's error text. -/
def PacketReader.readBool (r : PacketReader) : Except String Bool × PacketReader :=
  match r.readUInt8 with
  | (Except.ok v, r1) => (Except.ok (v != 0), r1)
  | (Except.error e, r1) => (Except.error e, r1)

/-- `readString`: read the 2-byte length via `readUInt16` (which already
advances the cursor by 2 on success), then bounds-check the announced
content; the failure path after a successful prefix read leaves the
cursor advanced by 2, since the thrown exception undoes nothing. -/
def PacketReader.readString (r : PacketReader) : Except String (List Nat) × PacketReader :=
  match r.readUInt16 with
  | (Except.error e, r1) => (Except.error e, r1)
  | (Except.ok len, r1) =>
    if r1.offset + (len : Int) > (r1.data.length : Int) then
      (Except.error ("PacketReader: Not enough data to read string"), r1)
    else
      (Except.ok (utf8Decode (jsSlice r1.data r1.offset (r1.offset + len))),
        { r1 with offset := r1.offset + len })

/-- `readBytes(length)`: bounds check `offset + length > data.length`,
then slice out `length` bytes and advance by `length`.  The caller can
pass any number, including a negative one. -/
def PacketReader.readBytes (r : PacketReader) (length : Int) :
    Except String (List Nat) × PacketReader :=
  if r.offset + length > (r.data.length : Int) then
    (Except.error ("PacketReader: Not enough data to read bytes"), r)
  else
    (Except.ok (jsSlice r.data r.offset (r.offset + length)),
      { r with offset := r.offset + length })

/-- `isComplete`: true iff the cursor sits exactly at the end. -/
def PacketReader.isComplete (r : PacketReader) : Bool :=
  r.offset == (r.data.length : Int)

/-- `remaining`: bytes left after the cursor. -/
def PacketReader.remaining (r : PacketReader) : Int :=
  (r.data.length : Int) - r.offset

/-- `reset`: move the cursor back to 0 unconditionally. -/
def PacketReader.reset (r : PacketReader) : PacketReader :=
  { r with offset := 0 }

/-- `getOffset`: the current cursor. -/
def PacketReader.getOffset (r : PacketReader) : Int :=
  r.offset

/-- `setOffset`: reject values outside `[0, data.length]` with an
invalid-offset error (cursor untouched), otherwise move the cursor. -/
def PacketReader.setOffset (r : PacketReader) (offset : Int) :
    Except String Unit × PacketReader :=
  if offset < 0 ∨ offset > (r.data.length : Int) then
    (Except.error ("PacketReader: Invalid offset"), r)
  else
    (Except.ok (), { r with offset := offset })

/-- One reader operation, for stating properties of arbitrary call
sequences (the mutating PacketReader interface). -/
inductive ReaderOp where
  | rUInt8 | rUInt16 | rUInt32 | rUInt64
  | rInt32 | rInt64 | rFloat32 | rFloat64
  | rBool | rString
  | rBytes (length : Int)
  | rReset
  | rSetOffset (v : Int)
deriving DecidableEq

/-- The state reached after one reader operation (results discarded;
failed calls still deliver their post-call state). -/
def stepOp (op : ReaderOp) (r : PacketReader) : PacketReader :=
  match op with
  | ReaderOp.rUInt8 => r.readUInt8.2
  | ReaderOp.rUInt16 => r.readUInt16.2
  | ReaderOp.rUInt32 => r.readUInt32.2
  | ReaderOp.rUInt64 => r.readUInt64.2
  | ReaderOp.rInt32 => r.readInt32.2
  | ReaderOp.rInt64 => r.readInt64.2
  | ReaderOp.rFloat32 => r.readFloat32.2
  | ReaderOp.rFloat64 => r.readFloat64.2
  | ReaderOp.rBool => r.readBool.2
  | ReaderOp.rString => r.readString.2
  | ReaderOp.rBytes n => (r.readBytes n).2
  | ReaderOp.rReset => r.reset
  | ReaderOp.rSetOffset v => (r.setOffset v).2

/-- Guard for the amended bounds claim: every caller-supplied
`readBytes` length is nonnegative. -/
def opOK : ReaderOp → Bool
  | ReaderOp.rBytes n => decide (0 ≤ n)
  | _ => true

/-- Whether an embedded call threw. -/
def isErr {α : Type} : Except String α → Bool
  | Except.error _ => true
  | Except.ok _ => false

instance {ε α : Type} [DecidableEq ε] [DecidableEq α] : DecidableEq (Except ε α) := fun x y =>
  match x, y with
  | Except.error e, Except.error f =>
    if h : e = f then Decidable.isTrue (by rw [h])
    else Decidable.isFalse (by intro hh; cases hh; exact h rfl)
  | Except.error _, Except.ok _ => Decidable.isFalse (by intro hh; cases hh)
  | Except.ok _, Except.error _ => Decidable.isFalse (by intro hh; cases hh)
  | Except.ok a, Except.ok b =>
    if h : a = b then Decidable.isTrue (by rw [h])
    else Decidable.isFalse (by intro hh; cases hh; exact h rfl)

/-! Bridges between the bitwise operations in the embedded code and
their arithmetic readings. -/

theorem and255_eq (x : Nat) : x &&& 255 = x % 256 := by
  have h := Nat.and_pow_two_sub_one_eq_mod x 8
  norm_num at h
  exact h

theorem lor_shl_eq_add {a : Nat} (b k : Nat) (h : a < 2 ^ k) :
    a ||| b <<< k = a + 2 ^ k * b := by
  rw [Nat.shiftLeft_eq, Nat.mul_comm b (2 ^ k), Nat.lor_comm,
    ← Nat.mul_add_lt_is_or h, Nat.add_comm]

theorem le2_assemble {b0 b1 : Nat} (h0 : b0 < 256) :
    b0 ||| b1 <<< 8 = b0 + 256 * b1 := by
  have := lor_shl_eq_add (a := b0) b1 8 (by omega)
  simpa using this

theorem le4_assemble {b0 b1 b2 b3 : Nat}
    (h0 : b0 < 256) (h1 : b1 < 256) (h2 : b2 < 256) :
    b0 ||| b1 <<< 8 ||| b2 <<< 16 ||| b3 <<< 24 =
      b0 + 256 * b1 + 65536 * b2 + 16777216 * b3 := by
  rw [lor_shl_eq_add (a := b0) b1 8 (by omega)]
  rw [lor_shl_eq_add (a := b0 + 2 ^ 8 * b1) b2 16 (by omega)]
  rw [lor_shl_eq_add (a := b0 + 2 ^ 8 * b1 + 2 ^ 16 * b2) b3 24 (by omega)]
  norm_num

/-! Buffer shapes of the writer operations, with the pushed bytes in
quotient/remainder form. -/

theorem writeUInt8_buffer (w : PacketWriter) (v : Nat) :
    (w.writeUInt8 v).buffer = w.buffer ++ [v % 256] := by
  simp [PacketWriter.writeUInt8, and255_eq]

theorem writeUInt16_buffer (w : PacketWriter) (v : Nat) :
    (w.writeUInt16 v).buffer = w.buffer ++ [v % 256, v / 256 % 256] := by
  simp [PacketWriter.writeUInt16, and255_eq, Nat.shiftRight_eq_div_pow]

theorem writeUInt32_buffer (w : PacketWriter) (v : Nat) :
    (w.writeUInt32 v).buffer =
      w.buffer ++ [v % 256, v / 256 % 256, v / 65536 % 256, v / 16777216 % 256] := by
  simp [PacketWriter.writeUInt32, and255_eq, Nat.shiftRight_eq_div_pow]

theorem writeUInt64_buffer (w : PacketWriter) (v : Nat) :
    (w.writeUInt64 v).buffer =
      w.buffer ++ [v % 256, v / 256 % 256, v / 65536 % 256, v / 16777216 % 256,
        v / 4294967296 % 256, v / 1099511627776 % 256,
        v / 281474976710656 % 256, v / 72057594037927936 % 256] := by
  have hr : List.range 8 = [0, 1, 2, 3, 4, 5, 6, 7] := by decide
  simp [PacketWriter.writeUInt64, hr, and255_eq, Nat.shiftRight_eq_div_pow]

theorem leBytes4_eq (v : Nat) :
    leBytes 4 v = [v % 256, v / 256 % 256, v / 65536 % 256, v / 16777216 % 256] := by
  have hr : List.range 4 = [0, 1, 2, 3] := by decide
  simp [leBytes, hr]

theorem leBytes8_eq (v : Nat) :
    leBytes 8 v = [v % 256, v / 256 % 256, v / 65536 % 256, v / 16777216 % 256,
      v / 4294967296 % 256, v / 1099511627776 % 256,
      v / 281474976710656 % 256, v / 72057594037927936 % 256] := by
  have hr : List.range 8 = [0, 1, 2, 3, 4, 5, 6, 7] := by decide
  simp [leBytes, hr]

theorem writeString_buffer (w : PacketWriter) (s : List Nat) :
    (w.writeString s).buffer = w.buffer ++
      ([(utf8Encode s).length % 256, (utf8Encode s).length / 256 % 256] ++ utf8Encode s) := by
  simp [PacketWriter.writeString, writeUInt16_buffer]

/-! Success-path characterizations of the reads, at a cursor standing on
a natural position. -/

theorem readUInt8_at (d : List Nat) (o : Nat) (h : o + 1 ≤ d.length) :
    PacketReader.readUInt8 (PacketReader.mk d (o : Int)) =
      (Except.ok (d.getD o 0), PacketReader.mk d ((o + 1 : Nat) : Int)) := by
  unfold PacketReader.readUInt8 PacketReader.byte
  rw [if_neg (by push_cast; omega)]
  simp only [Int.toNat_natCast, show (o : Int) + 1 = ((o + 1 : Nat) : Int) by omega]

theorem readUInt16_at (d : List Nat) (o : Nat) (h : o + 2 ≤ d.length) :
    PacketReader.readUInt16 (PacketReader.mk d (o : Int)) =
      (Except.ok (d.getD o 0 ||| (d.getD (o + 1) 0) <<< 8),
        PacketReader.mk d ((o + 2 : Nat) : Int)) := by
  unfold PacketReader.readUInt16 PacketReader.byte
  rw [if_neg (by push_cast; omega)]
  simp only [show (o : Int) + 1 = ((o + 1 : Nat) : Int) by omega,
    show (o : Int) + 2 = ((o + 2 : Nat) : Int) by omega, Int.toNat_natCast]

theorem readUInt32_at (d : List Nat) (o : Nat) (h : o + 4 ≤ d.length) :
    PacketReader.readUInt32 (PacketReader.mk d (o : Int)) =
      (Except.ok (d.getD o 0 ||| (d.getD (o + 1) 0) <<< 8 |||
          (d.getD (o + 2) 0) <<< 16 ||| (d.getD (o + 3) 0) <<< 24),
        PacketReader.mk d ((o + 4 : Nat) : Int)) := by
  unfold PacketReader.readUInt32 PacketReader.byte
  rw [if_neg (by push_cast; omega)]
  simp only [show (o : Int) + 1 = ((o + 1 : Nat) : Int) by omega,
    show (o : Int) + 2 = ((o + 2 : Nat) : Int) by omega,
    show (o : Int) + 3 = ((o + 3 : Nat) : Int) by omega,
    show (o : Int) + 4 = ((o + 4 : Nat) : Int) by omega, Int.toNat_natCast]

theorem readUInt64_at (d : List Nat) (o : Nat) (h : o + 8 ≤ d.length) :
    PacketReader.readUInt64 (PacketReader.mk d (o : Int)) =
      (Except.ok (d.getD o 0 ||| (d.getD (o + 1) 0) <<< 8 ||| (d.getD (o + 2) 0) <<< 16 |||
          (d.getD (o + 3) 0) <<< 24 ||| (d.getD (o + 4) 0) <<< 32 |||
          (d.getD (o + 5) 0) <<< 40 ||| (d.getD (o + 6) 0) <<< 48 |||
          (d.getD (o + 7) 0) <<< 56),
        PacketReader.mk d ((o + 8 : Nat) : Int)) := by
  unfold PacketReader.readUInt64 PacketReader.byte
  rw [if_neg (by push_cast; omega)]
  have hr : List.range 8 = [0, 1, 2, 3, 4, 5, 6, 7] := by decide
  rw [hr]
  simp only [List.foldl]
  norm_num
  simp only [show (o : Int) + 1 = ((o + 1 : Nat) : Int) by omega,
    show (o : Int) + 2 = ((o + 2 : Nat) : Int) by omega,
    show (o : Int) + 3 = ((o + 3 : Nat) : Int) by omega,
    show (o : Int) + 4 = ((o + 4 : Nat) : Int) by omega,
    show (o : Int) + 5 = ((o + 5 : Nat) : Int) by omega,
    show (o : Int) + 6 = ((o + 6 : Nat) : Int) by omega,
    show (o : Int) + 7 = ((o + 7 : Nat) : Int) by omega,
    show (o : Int) + 8 = ((o + 8 : Nat) : Int) by omega, Int.toNat_natCast]

theorem readInt32_at (d : List Nat) (o : Nat) (h : o + 4 ≤ d.length) :
    PacketReader.readInt32 (PacketReader.mk d (o : Int)) =
      (Except.ok
          (((d.getD o 0 ||| (d.getD (o + 1) 0) <<< 8 |||
              (d.getD (o + 2) 0) <<< 16 ||| (d.getD (o + 3) 0) <<< 24 : Nat) : Int) -
            (if 2147483648 ≤ (d.getD o 0 ||| (d.getD (o + 1) 0) <<< 8 |||
                (d.getD (o + 2) 0) <<< 16 ||| (d.getD (o + 3) 0) <<< 24 : Nat)
              then 4294967296 else 0)),
        PacketReader.mk d ((o + 4 : Nat) : Int)) := by
  unfold PacketReader.readInt32 PacketReader.byte
  rw [if_neg (by push_cast; omega)]
  simp only [show (o : Int) + 1 = ((o + 1 : Nat) : Int) by omega,
    show (o : Int) + 2 = ((o + 2 : Nat) : Int) by omega,
    show (o : Int) + 3 = ((o + 3 : Nat) : Int) by omega,
    show (o : Int) + 4 = ((o + 4 : Nat) : Int) by omega, Int.toNat_natCast]

theorem readInt64_at (d : List Nat) (o : Nat) (h : o + 8 ≤ d.length) :
    PacketReader.readInt64 (PacketReader.mk d (o : Int)) =
      (Except.ok
          (((d.getD o 0 ||| (d.getD (o + 1) 0) <<< 8 ||| (d.getD (o + 2) 0) <<< 16 |||
              (d.getD (o + 3) 0) <<< 24 ||| (d.getD (o + 4) 0) <<< 32 |||
              (d.getD (o + 5) 0) <<< 40 ||| (d.getD (o + 6) 0) <<< 48 |||
              (d.getD (o + 7) 0) <<< 56 : Nat) : Int) -
            (if 9223372036854775808 ≤ (d.getD o 0 ||| (d.getD (o + 1) 0) <<< 8 |||
                (d.getD (o + 2) 0) <<< 16 ||| (d.getD (o + 3) 0) <<< 24 |||
                (d.getD (o + 4) 0) <<< 32 ||| (d.getD (o + 5) 0) <<< 40 |||
                (d.getD (o + 6) 0) <<< 48 ||| (d.getD (o + 7) 0) <<< 56 : Nat)
              then 18446744073709551616 else 0)),
        PacketReader.mk d ((o + 8 : Nat) : Int)) := by
  unfold PacketReader.readInt64 PacketReader.byte
  rw [if_neg (by push_cast; omega)]
  have hr : List.range 8 = [0, 1, 2, 3, 4, 5, 6, 7] := by decide
  rw [hr]
  simp only [List.foldl]
  norm_num
  simp only [show (o : Int) + 1 = ((o + 1 : Nat) : Int) by omega,
    show (o : Int) + 2 = ((o + 2 : Nat) : Int) by omega,
    show (o : Int) + 3 = ((o + 3 : Nat) : Int) by omega,
    show (o : Int) + 4 = ((o + 4 : Nat) : Int) by omega,
    show (o : Int) + 5 = ((o + 5 : Nat) : Int) by omega,
    show (o : Int) + 6 = ((o + 6 : Nat) : Int) by omega,
    show (o : Int) + 7 = ((o + 7 : Nat) : Int) by omega,
    show (o : Int) + 8 = ((o + 8 : Nat) : Int) by omega, Int.toNat_natCast]

theorem readFloat32_at (d : List Nat) (o : Nat) (h : o + 4 ≤ d.length) :
    PacketReader.readFloat32 (PacketReader.mk d (o : Int)) =
      (Except.ok (d.getD o 0 ||| (d.getD (o + 1) 0) <<< 8 |||
          (d.getD (o + 2) 0) <<< 16 ||| (d.getD (o + 3) 0) <<< 24),
        PacketReader.mk d ((o + 4 : Nat) : Int)) := by
  unfold PacketReader.readFloat32 PacketReader.byte
  rw [if_neg (by push_cast; omega)]
  simp only [show (o : Int) + 1 = ((o + 1 : Nat) : Int) by omega,
    show (o : Int) + 2 = ((o + 2 : Nat) : Int) by omega,
    show (o : Int) + 3 = ((o + 3 : Nat) : Int) by omega,
    show (o : Int) + 4 = ((o + 4 : Nat) : Int) by omega, Int.toNat_natCast]

theorem readFloat64_at (d : List Nat) (o : Nat) (h : o + 8 ≤ d.length) :
    PacketReader.readFloat64 (PacketReader.mk d (o : Int)) =
      (Except.ok (d.getD o 0 ||| (d.getD (o + 1) 0) <<< 8 ||| (d.getD (o + 2) 0) <<< 16 |||
          (d.getD (o + 3) 0) <<< 24 ||| (d.getD (o + 4) 0) <<< 32 |||
          (d.getD (o + 5) 0) <<< 40 ||| (d.getD (o + 6) 0) <<< 48 |||
          (d.getD (o + 7) 0) <<< 56),
        PacketReader.mk d ((o + 8 : Nat) : Int)) := by
  unfold PacketReader.readFloat64 PacketReader.byte
  rw [if_neg (by push_cast; omega)]
  have hr : List.range 8 = [0, 1, 2, 3, 4, 5, 6, 7] := by decide
  rw [hr]
  simp only [List.foldl]
  norm_num
  simp only [show (o : Int) + 1 = ((o + 1 : Nat) : Int) by omega,
    show (o : Int) + 2 = ((o + 2 : Nat) : Int) by omega,
    show (o : Int) + 3 = ((o + 3 : Nat) : Int) by omega,
    show (o : Int) + 4 = ((o + 4 : Nat) : Int) by omega,
    show (o : Int) + 5 = ((o + 5 : Nat) : Int) by omega,
    show (o : Int) + 6 = ((o + 6 : Nat) : Int) by omega,
    show (o : Int) + 7 = ((o + 7 : Nat) : Int) by omega,
    show (o : Int) + 8 = ((o + 8 : Nat) : Int) by omega, Int.toNat_natCast]

theorem le8_assemble {b0 b1 b2 b3 b4 b5 b6 b7 : Nat}
    (h0 : b0 < 256) (h1 : b1 < 256) (h2 : b2 < 256) (h3 : b3 < 256)
    (h4 : b4 < 256) (h5 : b5 < 256) (h6 : b6 < 256) :
    b0 ||| b1 <<< 8 ||| b2 <<< 16 ||| b3 <<< 24 ||| b4 <<< 32 |||
        b5 <<< 40 ||| b6 <<< 48 ||| b7 <<< 56 =
      b0 + 256 * b1 + 65536 * b2 + 16777216 * b3 + 4294967296 * b4 +
        1099511627776 * b5 + 281474976710656 * b6 + 72057594037927936 * b7 := by
  rw [lor_shl_eq_add (a := b0) b1 8 (by omega)]
  rw [lor_shl_eq_add (a := b0 + 2 ^ 8 * b1) b2 16 (by omega)]
  rw [lor_shl_eq_add (a := b0 + 2 ^ 8 * b1 + 2 ^ 16 * b2) b3 24 (by omega)]
  rw [lor_shl_eq_add (a := b0 + 2 ^ 8 * b1 + 2 ^ 16 * b2 + 2 ^ 24 * b3) b4 32 (by omega)]
  rw [lor_shl_eq_add (a := b0 + 2 ^ 8 * b1 + 2 ^ 16 * b2 + 2 ^ 24 * b3 + 2 ^ 32 * b4)
    b5 40 (by omega)]
  rw [lor_shl_eq_add
    (a := b0 + 2 ^ 8 * b1 + 2 ^ 16 * b2 + 2 ^ 24 * b3 + 2 ^ 32 * b4 + 2 ^ 40 * b5)
    b6 48 (by omega)]
  rw [lor_shl_eq_add
    (a := b0 + 2 ^ 8 * b1 + 2 ^ 16 * b2 + 2 ^ 24 * b3 + 2 ^ 32 * b4 + 2 ^ 40 * b5 +
      2 ^ 48 * b6)
    b7 56 (by omega)]
  norm_num

theorem readBool_at (d : List Nat) (o : Nat) (h : o + 1 ≤ d.length) :
    PacketReader.readBool (PacketReader.mk d (o : Int)) =
      (Except.ok (d.getD o 0 != 0), PacketReader.mk d ((o + 1 : Nat) : Int)) := by
  unfold PacketReader.readBool
  rw [readUInt8_at d o h]

theorem jsSlice_nat (l : List Nat) (a b : Nat) (ha : a ≤ l.length) (hb : b ≤ l.length) :
    jsSlice l (a : Int) (b : Int) = (l.drop a).take (b - a) := by
  simp only [jsSlice]
  rw [if_neg (show ¬((a : Int) < 0) by omega), if_neg (show ¬((b : Int) < 0) by omega)]
  simp only [show min (a : Int) ((l.length : Nat) : Int) = (a : Int) by omega,
    show min (b : Int) ((l.length : Nat) : Int) = (b : Int) by omega,
    show ((b : Int) - (a : Int)).toNat = b - a by omega, Int.toNat_natCast]

/-- A `readString` over a well-formed string field: the 2-byte prefix
holds the low bits of the UTF-8 byte count `L`, the content that is
actually read back is the first `L mod 2 ^ 16` encoded bytes. -/
theorem readString_at (pre u : List Nat) :
    PacketReader.readString
        (PacketReader.mk (pre ++ ([u.length % 256, u.length / 256 % 256] ++ u))
          (pre.length : Int)) =
      (Except.ok (utf8Decode (u.take (u.length % 65536))),
        PacketReader.mk (pre ++ ([u.length % 256, u.length / 256 % 256] ++ u))
          ((pre.length + 2 + u.length % 65536 : Nat) : Int)) := by
  set d := pre ++ ([u.length % 256, u.length / 256 % 256] ++ u) with hd
  have hdlen : d.length = pre.length + 2 + u.length := by simp [hd]; omega
  have hb0 : d.getD pre.length 0 = u.length % 256 := by
    rw [hd, List.getD_append_right _ _ _ _ (Nat.le_refl _), Nat.sub_self]
    rfl
  have hb1 : d.getD (pre.length + 1) 0 = u.length / 256 % 256 := by
    rw [hd, List.getD_append_right _ _ _ _ (by omega), Nat.add_sub_cancel_left]
    rfl
  have hval : d.getD pre.length 0 ||| (d.getD (pre.length + 1) 0) <<< 8 =
      u.length % 65536 := by
    rw [hb0, hb1, le2_assemble (by omega)]
    omega
  unfold PacketReader.readString
  rw [readUInt16_at d pre.length (by omega), hval]
  dsimp only
  rw [if_neg (by push_cast; omega)]
  have hslice : jsSlice d ((pre.length + 2 : Nat) : Int)
      (((pre.length + 2 : Nat) : Int) + ((u.length % 65536 : Nat) : Int)) =
      u.take (u.length % 65536) := by
    rw [show ((pre.length + 2 : Nat) : Int) + ((u.length % 65536 : Nat) : Int) =
      ((pre.length + 2 + u.length % 65536 : Nat) : Int) by push_cast; ring]
    rw [jsSlice_nat d _ _ (by omega) (by omega)]
    have hdrop : d.drop (pre.length + 2) = u := by
      rw [hd, show pre ++ ([u.length % 256, u.length / 256 % 256] ++ u) =
        (pre ++ [u.length % 256, u.length / 256 % 256]) ++ u by simp]
      exact List.drop_left' (by simp)
    rw [hdrop]
    congr 1
    omega
  rw [hslice]
  congr 1

/-! Correctness of the UTF-8 model: the WHATWG decoder inverts the
encoder on sequences of Unicode scalar values. -/

theorem utf8Decode_nil : utf8Decode [] = [] := rfl

theorem utf8Lead_ascii {b : Nat} (h : b < 128) : utf8Lead b = ([b], 0, 0, 128, 191) := by
  unfold utf8Lead
  rw [if_pos h]

theorem utf8Lead_two {b : Nat} (h1 : 194 ≤ b) (h2 : b ≤ 223) :
    utf8Lead b = ([], 1, b - 192, 128, 191) := by
  unfold utf8Lead
  rw [if_neg (by omega), if_pos ⟨h1, h2⟩]

theorem utf8Lead_three {b : Nat} (h1 : 224 ≤ b) (h2 : b ≤ 239) :
    utf8Lead b =
      ([], 2, b - 224, if b = 224 then 160 else 128, if b = 237 then 159 else 191) := by
  unfold utf8Lead
  rw [if_neg (by omega), if_neg (by omega), if_pos ⟨h1, h2⟩]

theorem utf8Lead_four {b : Nat} (h1 : 240 ≤ b) (h2 : b ≤ 244) :
    utf8Lead b =
      ([], 3, b - 240, if b = 240 then 144 else 128, if b = 244 then 143 else 191) := by
  unfold utf8Lead
  rw [if_neg (by omega), if_neg (by omega), if_neg (by omega), if_pos ⟨h1, h2⟩]

theorem utf8DecodeLoop_cons (needed cp lo hi b : Nat) (bs : List Nat) :
    utf8DecodeLoop needed cp lo hi (b :: bs) =
      if needed = 0 then
        (utf8Lead b).1 ++ utf8DecodeLoop (utf8Lead b).2.1 (utf8Lead b).2.2.1
          (utf8Lead b).2.2.2.1 (utf8Lead b).2.2.2.2 bs
      else if lo ≤ b ∧ b ≤ hi then
        if needed = 1 then (cp * 64 + (b - 128)) :: utf8DecodeLoop 0 0 128 191 bs
        else utf8DecodeLoop (needed - 1) (cp * 64 + (b - 128)) 128 191 bs
      else
        65533 :: ((utf8Lead b).1 ++ utf8DecodeLoop (utf8Lead b).2.1 (utf8Lead b).2.2.1
          (utf8Lead b).2.2.2.1 (utf8Lead b).2.2.2.2 bs) := rfl

theorem utf8DecodeLoop_encodeChar (c : Nat) (t : List Nat) (hc : ValidScalar c) :
    utf8DecodeLoop 0 0 128 191 (utf8EncodeChar c ++ t) =
      c :: utf8DecodeLoop 0 0 128 191 t := by
  obtain ⟨hlt, hsur⟩ := hc
  by_cases h1 : c < 128
  · rw [utf8EncodeChar, if_pos h1]
    simp only [List.cons_append, List.nil_append]
    rw [utf8DecodeLoop_cons, if_pos rfl, utf8Lead_ascii h1]
    rfl
  · by_cases h2 : c < 2048
    · rw [utf8EncodeChar, if_neg h1, if_pos h2]
      simp only [List.cons_append, List.nil_append]
      rw [utf8DecodeLoop_cons, if_pos rfl, utf8Lead_two (by omega) (by omega)]
      dsimp only
      simp only [List.nil_append]
      rw [utf8DecodeLoop_cons, if_neg (by omega),
        if_pos (show 128 ≤ 128 + c % 64 ∧ 128 + c % 64 ≤ 191 by omega), if_pos rfl]
      simp only [List.cons.injEq]
      exact ⟨by omega, trivial⟩
    · by_cases h3 : c < 65536
      · rw [utf8EncodeChar, if_neg h1, if_neg h2, if_pos h3]
        simp only [List.cons_append, List.nil_append]
        rw [utf8DecodeLoop_cons, if_pos rfl, utf8Lead_three (by omega) (by omega)]
        dsimp only
        simp only [List.nil_append]
        rw [utf8DecodeLoop_cons, if_neg (by omega),
          if_pos (show (if 224 + c / 4096 = 224 then 160 else 128) ≤ 128 + c / 64 % 64 ∧
            128 + c / 64 % 64 ≤ (if 224 + c / 4096 = 237 then 159 else 191) by
              constructor <;> split <;> omega),
          if_neg (by omega)]
        rw [utf8DecodeLoop_cons, if_neg (by omega),
          if_pos (show 128 ≤ 128 + c % 64 ∧ 128 + c % 64 ≤ 191 by omega), if_pos (by omega)]
        simp only [List.cons.injEq]
        exact ⟨by omega, trivial⟩
      · rw [utf8EncodeChar, if_neg h1, if_neg h2, if_neg h3]
        simp only [List.cons_append, List.nil_append]
        rw [utf8DecodeLoop_cons, if_pos rfl, utf8Lead_four (by omega) (by omega)]
        dsimp only
        simp only [List.nil_append]
        rw [utf8DecodeLoop_cons, if_neg (by omega),
          if_pos (show (if 240 + c / 262144 = 240 then 144 else 128) ≤ 128 + c / 4096 % 64 ∧
            128 + c / 4096 % 64 ≤ (if 240 + c / 262144 = 244 then 143 else 191) by
              constructor <;> split <;> omega),
          if_neg (by omega)]
        rw [utf8DecodeLoop_cons, if_neg (by omega),
          if_pos (show 128 ≤ 128 + c / 64 % 64 ∧ 128 + c / 64 % 64 ≤ 191 by omega),
          if_neg (by omega)]
        rw [utf8DecodeLoop_cons, if_neg (by omega),
          if_pos (show 128 ≤ 128 + c % 64 ∧ 128 + c % 64 ≤ 191 by omega), if_pos (by omega)]
        simp only [List.cons.injEq]
        exact ⟨by omega, trivial⟩

theorem utf8DecodeLoop_encode_append (cs t : List Nat) (h : ∀ c ∈ cs, ValidScalar c) :
    utf8DecodeLoop 0 0 128 191 (utf8Encode cs ++ t) =
      cs ++ utf8DecodeLoop 0 0 128 191 t := by
  induction cs with
  | nil => rfl
  | cons c cs ih =>
    have hc : ValidScalar c := h c (by simp)
    have hcs : ∀ x ∈ cs, ValidScalar x := fun x hx => h x (by simp [hx])
    rw [utf8Encode, List.append_assoc, utf8DecodeLoop_encodeChar c _ hc, ih hcs]
    rfl

/-- Among the UTF-8 encodings of valid scalars, only U+FEFF itself
begins with the byte-order-mark bytes EF BB BF, so the BOM-stripping
step of the decoder never fires on an encoded string that does not
start with U+FEFF. -/
theorem encChar_take3_ne (c : Nat) (hc : ValidScalar c) (hne : c ≠ 65279) (t : List Nat) :
    (utf8EncodeChar c ++ t).take 3 ≠ [239, 187, 191] := by
  obtain ⟨hlt, hsur⟩ := hc
  unfold utf8EncodeChar
  split_ifs with h1 h2 h3
  · intro h
    simp only [List.cons_append, List.nil_append, List.take_succ_cons, List.cons.injEq] at h
    omega
  · intro h
    simp only [List.cons_append, List.nil_append, List.take_succ_cons, List.cons.injEq] at h
    omega
  · intro h
    simp only [List.cons_append, List.nil_append, List.take_succ_cons, List.take_zero,
      List.cons.injEq] at h
    omega
  · intro h
    simp only [List.cons_append, List.nil_append, List.take_succ_cons, List.cons.injEq] at h
    omega

/-- The decoder inverts the encoder on every valid scalar sequence that
does not begin with U+FEFF (a leading U+FEFF would be consumed by the
default BOM removal). -/
theorem utf8Decode_encode (cs : List Nat) (h : ∀ c ∈ cs, ValidScalar c)
    (hbom : cs.head? ≠ some 65279) :
    utf8Decode (utf8Encode cs) = cs := by
  cases cs with
  | nil => rfl
  | cons c cs =>
    have hc : ValidScalar c := h c (by simp)
    have hne : c ≠ 65279 := by
      simp only [List.head?, ne_eq, Option.some.injEq] at hbom
      exact hbom
    unfold utf8Decode
    rw [if_neg (by rw [utf8Encode]; exact encChar_take3_ne c hc hne _)]
    rw [show utf8Encode (c :: cs) = utf8Encode (c :: cs) ++ [] from (List.append_nil _).symm]
    rw [utf8DecodeLoop_encode_append (c :: cs) [] h]
    rw [show utf8DecodeLoop 0 0 128 191 [] = [] from rfl, List.append_nil]

theorem utf8EncodeChar_length_pos (c : Nat) : 1 ≤ (utf8EncodeChar c).length := by
  unfold utf8EncodeChar
  split_ifs <;> simp

theorem utf8EncodeChar_length_le (c : Nat) : (utf8EncodeChar c).length ≤ 4 := by
  unfold utf8EncodeChar
  split_ifs <;> simp

theorem utf8Encode_append (a b : List Nat) :
    utf8Encode (a ++ b) = utf8Encode a ++ utf8Encode b := by
  induction a with
  | nil => rfl
  | cons c cs ih => simp [utf8Encode, ih]

theorem utf8Encode_length_le (cs : List Nat) : (utf8Encode cs).length ≤ 4 * cs.length := by
  induction cs with
  | nil => simp [utf8Encode]
  | cons c cs ih =>
    have := utf8EncodeChar_length_le c
    simp only [utf8Encode, List.length_append, List.length_cons]
    omega

theorem utf8Lead_out_le (b : Nat) : (utf8Lead b).1.length ≤ 1 := by
  unfold utf8Lead
  split_ifs <;> simp

theorem utf8Lead_out_nil (b : Nat) (h : (utf8Lead b).2.1 ≠ 0) :
    (utf8Lead b).1.length = 0 := by
  unfold utf8Lead at h ⊢
  split_ifs at h ⊢ <;> simp_all

/-- Each consumed byte contributes at most one scalar, with one extra
U+FFFD possible from a pending (truncated) sequence. -/
theorem utf8DecodeLoop_length_le (bs : List Nat) : ∀ needed cp lo hi : Nat,
    (utf8DecodeLoop needed cp lo hi bs).length ≤
      bs.length + (if needed = 0 then 0 else 1) := by
  induction bs with
  | nil =>
    intro needed cp lo hi
    simp only [utf8DecodeLoop]
    split_ifs <;> simp
  | cons b bs ih =>
    intro needed cp lo hi
    rw [utf8DecodeLoop_cons]
    split_ifs with h0 hbb h1
    · have hL := utf8Lead_out_le b
      have hI := ih (utf8Lead b).2.1 (utf8Lead b).2.2.1 (utf8Lead b).2.2.2.1
        (utf8Lead b).2.2.2.2
      simp only [List.length_append, List.length_cons, if_pos h0]
      by_cases hn2 : (utf8Lead b).2.1 = 0
      · rw [if_pos hn2] at hI
        omega
      · have h00 := utf8Lead_out_nil b hn2
        rw [if_neg hn2] at hI
        omega
    · have hI := ih 0 0 128 191
      rw [if_pos rfl] at hI
      simp only [List.length_cons, if_neg h0]
      omega
    · have hI := ih (needed - 1) (cp * 64 + (b - 128)) 128 191
      simp only [List.length_cons, if_neg h0]
      by_cases hn1 : needed - 1 = 0
      · rw [if_pos hn1] at hI
        omega
      · rw [if_neg hn1] at hI
        omega
    · have hL := utf8Lead_out_le b
      have hI := ih (utf8Lead b).2.1 (utf8Lead b).2.2.1 (utf8Lead b).2.2.2.1
        (utf8Lead b).2.2.2.2
      simp only [List.length_append, List.length_cons, if_neg h0]
      by_cases hn2 : (utf8Lead b).2.1 = 0
      · rw [if_pos hn2] at hI
        omega
      · have h00 := utf8Lead_out_nil b hn2
        rw [if_neg hn2] at hI
        omega

theorem utf8Decode_length_le (bs : List Nat) : (utf8Decode bs).length ≤ bs.length := by
  unfold utf8Decode
  split_ifs with h
  · have h3 := utf8DecodeLoop_length_le (bs.drop 3) 0 0 128 191
    simp at h3
    omega
  · have h0 := utf8DecodeLoop_length_le bs 0 0 128 191
    simpa using h0

/-- BOM stripping only ever shortens the output: the decoder's result
is never longer than a bare run of the WHATWG loop. -/
theorem utf8Decode_length_le_loop (bs : List Nat) :
    (utf8Decode bs).length ≤ (utf8DecodeLoop 0 0 128 191 bs).length := by
  unfold utf8Decode
  split_ifs with h
  · have hsplit : bs = [239, 187, 191] ++ bs.drop 3 := by
      conv_lhs => rw [← List.take_append_drop 3 bs]
      rw [h]
    have hloop : utf8DecodeLoop 0 0 128 191 bs =
        65279 :: utf8DecodeLoop 0 0 128 191 (bs.drop 3) := by
      conv_lhs => rw [hsplit]
      rw [show ([239, 187, 191] : List Nat) = utf8EncodeChar 65279 from by decide]
      exact utf8DecodeLoop_encodeChar 65279 _ (by decide)
    rw [hloop]
    simp
  · exact le_refl _

/-- A prefix of an encoded scalar sequence splits as the encoding of a
scalar prefix plus at most 3 bytes of one cut-off character. -/
theorem utf8Encode_take_decomp (cs : List Nat) : ∀ k : Nat, k ≤ (utf8Encode cs).length →
    ∃ cs1 cs2 p, cs = cs1 ++ cs2 ∧ (utf8Encode cs).take k = utf8Encode cs1 ++ p ∧
      p.length ≤ 3 ∧ (utf8Encode cs1).length + p.length = k := by
  induction cs with
  | nil =>
    intro k hk
    refine ⟨[], [], [], by simp, ?_, by simp, ?_⟩
    · simp only [utf8Encode] at hk ⊢
      simp at hk
      simp [hk]
    · simp only [utf8Encode] at hk ⊢
      simp at hk
      simp [hk]
  | cons c cs ih =>
    intro k hk
    have hce := utf8EncodeChar_length_le c
    have hcp := utf8EncodeChar_length_pos c
    by_cases hke : k < (utf8EncodeChar c).length
    · refine ⟨[], c :: cs, (utf8Encode (c :: cs)).take k, by simp, by simp [utf8Encode], ?_, ?_⟩
      · simp only [List.length_take]
        omega
      · simp only [utf8Encode, List.length_take, List.length_append]
        simp [utf8Encode]
        omega
    · have hlen : (utf8Encode (c :: cs)).length =
          (utf8EncodeChar c).length + (utf8Encode cs).length := by
        simp [utf8Encode]
      obtain ⟨cs1, cs2, p, hsplit, htake, hp3, hplen⟩ :=
        ih (k - (utf8EncodeChar c).length) (by omega)
      refine ⟨c :: cs1, cs2, p, by simp [hsplit], ?_, hp3, ?_⟩
      · show (utf8EncodeChar c ++ utf8Encode cs).take k = utf8Encode (c :: cs1) ++ p
        rw [List.take_append_eq_append_take, List.take_of_length_le (by omega), htake]
        simp [utf8Encode]
      · simp only [utf8Encode, List.length_append]
        omega

/-- Decoding the first `L mod 2 ^ 16` bytes of a 65536-byte-or-longer
encoding can never reproduce the original scalar sequence: at least
65536 encoded bytes are missing, i.e. at least 16384 scalars, while the
cut-off character contributes at most 3 replacement scalars. -/
theorem utf8Decode_take_ne (s : List Nat) (hv : ∀ c ∈ s, ValidScalar c)
    (hL : 65536 ≤ (utf8Encode s).length) :
    utf8Decode ((utf8Encode s).take ((utf8Encode s).length % 65536)) ≠ s := by
  have hk : (utf8Encode s).length % 65536 ≤ (utf8Encode s).length := Nat.mod_le _ _
  obtain ⟨cs1, cs2, p, hsplit, htake, hp3, hplen⟩ :=
    utf8Encode_take_decomp s ((utf8Encode s).length % 65536) hk
  have hv1 : ∀ c ∈ cs1, ValidScalar c := by
    intro c hc
    exact hv c (by rw [hsplit]; exact List.mem_append_left _ hc)
  have hloop : utf8DecodeLoop 0 0 128 191
      ((utf8Encode s).take ((utf8Encode s).length % 65536)) =
      cs1 ++ utf8DecodeLoop 0 0 128 191 p := by
    rw [htake]
    exact utf8DecodeLoop_encode_append cs1 p hv1
  have hlp : (utf8DecodeLoop 0 0 128 191 p).length ≤ 3 := by
    have hll := utf8DecodeLoop_length_le p 0 0 128 191
    simp at hll
    omega
  have hlen_le : (utf8Decode ((utf8Encode s).take ((utf8Encode s).length % 65536))).length ≤
      cs1.length + 3 := by
    have h1 := utf8Decode_length_le_loop ((utf8Encode s).take ((utf8Encode s).length % 65536))
    rw [hloop, List.length_append] at h1
    omega
  have henc : utf8Encode s = utf8Encode cs1 ++ utf8Encode cs2 := by
    rw [hsplit, utf8Encode_append]
  have henc2 : (utf8Encode s).length = (utf8Encode cs1).length + (utf8Encode cs2).length := by
    rw [henc, List.length_append]
  have hmod : 65536 ≤ (utf8Encode s).length - (utf8Encode s).length % 65536 := by
    omega
  have hbig : 65533 ≤ (utf8Encode cs2).length := by
    omega
  have hcs2 : 16384 ≤ cs2.length := by
    have := utf8Encode_length_le cs2
    omega
  intro heq
  have hslen : s.length = cs1.length + cs2.length := by
    rw [hsplit, List.length_append]
  have hlens := congrArg List.length heq
  omega

/-! Round-trip helpers: reading back the field a write just appended,
with the cursor standing where the write began. -/

theorem getD_append_self (pre l : List Nat) :
    (pre ++ l).getD pre.length 0 = l.getD 0 0 := by
  rw [List.getD_append_right _ _ _ _ (Nat.le_refl _), Nat.sub_self]

theorem getD_append_at (pre l : List Nat) (i : Nat) :
    (pre ++ l).getD (pre.length + i) 0 = l.getD i 0 := by
  rw [List.getD_append_right _ _ _ _ (by omega), Nat.add_sub_cancel_left]

theorem roundTrip_uint8 (w : PacketWriter) (v : Nat) (hv : v < 256) :
    (PacketReader.readUInt8
      (PacketReader.mk (w.writeUInt8 v).getData (w.buffer.length : Int))).1 = Except.ok v := by
  rw [show (w.writeUInt8 v).getData = w.buffer ++ [v % 256] from writeUInt8_buffer w v]
  rw [readUInt8_at _ _ (by simp)]
  rw [getD_append_self]
  simp [List.getD, Nat.mod_eq_of_lt hv]

theorem roundTrip_uint16 (w : PacketWriter) (v : Nat) (hv : v < 65536) :
    (PacketReader.readUInt16
      (PacketReader.mk (w.writeUInt16 v).getData (w.buffer.length : Int))).1 = Except.ok v := by
  rw [show (w.writeUInt16 v).getData = w.buffer ++ [v % 256, v / 256 % 256] from
    writeUInt16_buffer w v]
  rw [readUInt16_at _ _ (by simp)]
  rw [getD_append_self, getD_append_at]
  simp only [List.getD_cons_zero, List.getD_cons_succ]
  rw [le2_assemble (by omega)]
  congr 1
  omega

theorem roundTrip_uint32 (w : PacketWriter) (v : Nat) (hv : v < 4294967296) :
    (PacketReader.readUInt32
      (PacketReader.mk (w.writeUInt32 v).getData (w.buffer.length : Int))).1 = Except.ok v := by
  rw [show (w.writeUInt32 v).getData =
    w.buffer ++ [v % 256, v / 256 % 256, v / 65536 % 256, v / 16777216 % 256] from
    writeUInt32_buffer w v]
  rw [readUInt32_at _ _ (by simp)]
  rw [getD_append_self, getD_append_at, getD_append_at, getD_append_at]
  simp only [List.getD_cons_zero, List.getD_cons_succ]
  rw [le4_assemble (by omega) (by omega) (by omega)]
  congr 1
  omega

theorem roundTrip_uint64 (w : PacketWriter) (v : Nat) (hv : v < 18446744073709551616) :
    (PacketReader.readUInt64
      (PacketReader.mk (w.writeUInt64 v).getData (w.buffer.length : Int))).1 = Except.ok v := by
  rw [show (w.writeUInt64 v).getData =
    w.buffer ++ [v % 256, v / 256 % 256, v / 65536 % 256, v / 16777216 % 256,
      v / 4294967296 % 256, v / 1099511627776 % 256,
      v / 281474976710656 % 256, v / 72057594037927936 % 256] from
    writeUInt64_buffer w v]
  rw [readUInt64_at _ _ (by simp)]
  rw [getD_append_self, getD_append_at, getD_append_at, getD_append_at, getD_append_at,
    getD_append_at, getD_append_at, getD_append_at]
  simp only [List.getD_cons_zero, List.getD_cons_succ]
  rw [le8_assemble (by omega) (by omega) (by omega) (by omega) (by omega) (by omega) (by omega)]
  congr 1
  omega

theorem roundTrip_int32 (w : PacketWriter) (v : Int)
    (hlo : -2147483648 ≤ v) (hhi : v < 2147483648) :
    (PacketReader.readInt32
      (PacketReader.mk (w.writeInt32 v).getData (w.buffer.length : Int))).1 = Except.ok v := by
  rw [show (w.writeInt32 v).getData =
    w.buffer ++ leBytes 4 ((v % 4294967296).toNat) from rfl]
  rw [leBytes4_eq]
  rw [readInt32_at _ _ (by simp)]
  rw [getD_append_self, getD_append_at, getD_append_at, getD_append_at]
  simp only [List.getD_cons_zero, List.getD_cons_succ]
  have hA := @le4_assemble ((v % 4294967296).toNat % 256)
    ((v % 4294967296).toNat / 256 % 256) ((v % 4294967296).toNat / 65536 % 256)
    ((v % 4294967296).toNat / 16777216 % 256) (by omega) (by omega) (by omega)
  simp only [hA]
  rw [Except.ok.injEq]
  split <;> omega

theorem roundTrip_int64 (w : PacketWriter) (v : Int)
    (hlo : -9223372036854775808 ≤ v) (hhi : v < 9223372036854775808) :
    (PacketReader.readInt64
      (PacketReader.mk (w.writeInt64 v).getData (w.buffer.length : Int))).1 = Except.ok v := by
  rw [show (w.writeInt64 v).getData =
    w.buffer ++ leBytes 8 ((v % 18446744073709551616).toNat) from rfl]
  rw [leBytes8_eq]
  rw [readInt64_at _ _ (by simp)]
  rw [getD_append_self, getD_append_at, getD_append_at, getD_append_at, getD_append_at,
    getD_append_at, getD_append_at, getD_append_at]
  simp only [List.getD_cons_zero, List.getD_cons_succ]
  have hA := @le8_assemble ((v % 18446744073709551616).toNat % 256)
    ((v % 18446744073709551616).toNat / 256 % 256)
    ((v % 18446744073709551616).toNat / 65536 % 256)
    ((v % 18446744073709551616).toNat / 16777216 % 256)
    ((v % 18446744073709551616).toNat / 4294967296 % 256)
    ((v % 18446744073709551616).toNat / 1099511627776 % 256)
    ((v % 18446744073709551616).toNat / 281474976710656 % 256)
    ((v % 18446744073709551616).toNat / 72057594037927936 % 256)
    (by omega) (by omega) (by omega) (by omega) (by omega) (by omega) (by omega)
  simp only [hA]
  rw [Except.ok.injEq]
  split <;> omega

theorem roundTrip_float32 (w : PacketWriter) (bits : Nat) (hv : bits < 4294967296) :
    (PacketReader.readFloat32
      (PacketReader.mk (w.writeFloat32 bits).getData (w.buffer.length : Int))).1 =
      Except.ok bits := by
  rw [show (w.writeFloat32 bits).getData = w.buffer ++ leBytes 4 bits from rfl]
  rw [leBytes4_eq]
  rw [readFloat32_at _ _ (by simp)]
  rw [getD_append_self, getD_append_at, getD_append_at, getD_append_at]
  simp only [List.getD_cons_zero, List.getD_cons_succ]
  rw [le4_assemble (by omega) (by omega) (by omega)]
  congr 1
  omega

theorem roundTrip_float64 (w : PacketWriter) (bits : Nat) (hv : bits < 18446744073709551616) :
    (PacketReader.readFloat64
      (PacketReader.mk (w.writeFloat64 bits).getData (w.buffer.length : Int))).1 =
      Except.ok bits := by
  rw [show (w.writeFloat64 bits).getData = w.buffer ++ leBytes 8 bits from rfl]
  rw [leBytes8_eq]
  rw [readFloat64_at _ _ (by simp)]
  rw [getD_append_self, getD_append_at, getD_append_at, getD_append_at, getD_append_at,
    getD_append_at, getD_append_at, getD_append_at]
  simp only [List.getD_cons_zero, List.getD_cons_succ]
  rw [le8_assemble (by omega) (by omega) (by omega) (by omega) (by omega) (by omega) (by omega)]
  congr 1
  omega

theorem roundTrip_bool (w : PacketWriter) (v : Bool) :
    (PacketReader.readBool
      (PacketReader.mk (w.writeBool v).getData (w.buffer.length : Int))).1 = Except.ok v := by
  rw [show (w.writeBool v).getData = w.buffer ++ [if v then 1 else 0] from rfl]
  rw [readBool_at _ _ (by simp)]
  rw [getD_append_self]
  cases v <;> simp [List.getD]

theorem roundTrip_string (w : PacketWriter) (s : List Nat)
    (hv : ∀ c ∈ s, ValidScalar c) (hlen : (utf8Encode s).length < 65536)
    (hbom : s.head? ≠ some 65279) :
    (PacketReader.readString
      (PacketReader.mk (w.writeString s).getData (w.buffer.length : Int))).1 = Except.ok s := by
  rw [show (w.writeString s).getData = w.buffer ++
    ([(utf8Encode s).length % 256, (utf8Encode s).length / 256 % 256] ++ utf8Encode s) from
    writeString_buffer w s]
  rw [readString_at w.buffer (utf8Encode s)]
  rw [Nat.mod_eq_of_lt hlen, List.take_length]
  rw [utf8Decode_encode s hv hbom]

/-- Counterexample to C1 as stated: the one-scalar string U+FEFF
(65279) is in the stated valid domain — a valid scalar with a 3-byte
UTF-8 encoding EF BB BF — yet reading back what writeString produced for
it returns the empty string, because the platform TextDecoder removes a
leading byte-order mark. -/
theorem c1_counterexample :
    ValidScalar 65279 ∧ (utf8Encode [65279]).length < 65536 ∧
    (PacketReader.readString (PacketReader.mk
      (((PacketWriter.new 0).writeString [65279]).getData)
      (((PacketWriter.new 0).buffer.length : Nat) : Int))).1 = Except.ok [] ∧
    (PacketReader.readString (PacketReader.mk
      (((PacketWriter.new 0).writeString [65279]).getData)
      (((PacketWriter.new 0).buffer.length : Nat) : Int))).1 ≠ Except.ok [65279] := by
  decide

/-- Claim C1 (amended): for every supported primitive type (uint8,
uint16, uint32, uint64, int32, int64, float32, float64, bool, string)
and every value in that type's valid domain — floats represented
bit-exactly by their IEEE-754 patterns, strings being scalar sequences
whose UTF-8 encoding fits the 2-byte length prefix and whose first
scalar is not U+FEFF (the platform TextDecoder strips a leading
byte-order mark) — constructing a PacketReader over the bytes a
PacketWriter produced for the value and issuing the matching read
returns the value exactly. -/
theorem c1_round_trip (w : PacketWriter) :
    (∀ v : Nat, v < 256 →
      (PacketReader.readUInt8
        (PacketReader.mk (w.writeUInt8 v).getData (w.buffer.length : Int))).1 = Except.ok v) ∧
    (∀ v : Nat, v < 65536 →
      (PacketReader.readUInt16
        (PacketReader.mk (w.writeUInt16 v).getData (w.buffer.length : Int))).1 = Except.ok v) ∧
    (∀ v : Nat, v < 4294967296 →
      (PacketReader.readUInt32
        (PacketReader.mk (w.writeUInt32 v).getData (w.buffer.length : Int))).1 = Except.ok v) ∧
    (∀ v : Nat, v < 18446744073709551616 →
      (PacketReader.readUInt64
        (PacketReader.mk (w.writeUInt64 v).getData (w.buffer.length : Int))).1 = Except.ok v) ∧
    (∀ v : Int, -2147483648 ≤ v → v < 2147483648 →
      (PacketReader.readInt32
        (PacketReader.mk (w.writeInt32 v).getData (w.buffer.length : Int))).1 = Except.ok v) ∧
    (∀ v : Int, -9223372036854775808 ≤ v → v < 9223372036854775808 →
      (PacketReader.readInt64
        (PacketReader.mk (w.writeInt64 v).getData (w.buffer.length : Int))).1 = Except.ok v) ∧
    (∀ bits : Nat, bits < 4294967296 →
      (PacketReader.readFloat32
        (PacketReader.mk (w.writeFloat32 bits).getData (w.buffer.length : Int))).1 =
        Except.ok bits) ∧
    (∀ bits : Nat, bits < 18446744073709551616 →
      (PacketReader.readFloat64
        (PacketReader.mk (w.writeFloat64 bits).getData (w.buffer.length : Int))).1 =
        Except.ok bits) ∧
    (∀ v : Bool,
      (PacketReader.readBool
        (PacketReader.mk (w.writeBool v).getData (w.buffer.length : Int))).1 = Except.ok v) ∧
    (∀ s : List Nat, (∀ c ∈ s, ValidScalar c) → (utf8Encode s).length < 65536 →
      s.head? ≠ some 65279 →
      (PacketReader.readString
        (PacketReader.mk (w.writeString s).getData (w.buffer.length : Int))).1 =
        Except.ok s) :=
  ⟨fun v hv => roundTrip_uint8 w v hv,
   fun v hv => roundTrip_uint16 w v hv,
   fun v hv => roundTrip_uint32 w v hv,
   fun v hv => roundTrip_uint64 w v hv,
   fun v h1 h2 => roundTrip_int32 w v h1 h2,
   fun v h1 h2 => roundTrip_int64 w v h1 h2,
   fun b hb => roundTrip_float32 w b hb,
   fun b hb => roundTrip_float64 w b hb,
   fun v => roundTrip_bool w v,
   fun s h1 h2 h3 => roundTrip_string w s h1 h2 h3⟩

/-- Witness for C1 at concrete values of every type, over the writer
fresh from the constructor with id 0 (so the cursor starts at 2). -/
theorem c1_round_trip_witness :
    ((7 : Nat) < 256 ∧
      (PacketReader.readUInt8 (PacketReader.mk ((PacketWriter.new 0).writeUInt8 7).getData
        (((PacketWriter.new 0).buffer.length : Nat) : Int))).1 = Except.ok 7) ∧
    ((40000 : Nat) < 65536 ∧
      (PacketReader.readUInt16 (PacketReader.mk ((PacketWriter.new 0).writeUInt16 40000).getData
        (((PacketWriter.new 0).buffer.length : Nat) : Int))).1 = Except.ok 40000) ∧
    ((3000000000 : Nat) < 4294967296 ∧
      (PacketReader.readUInt32 (PacketReader.mk
        (((PacketWriter.new 0).writeUInt32 3000000000).getData)
        (((PacketWriter.new 0).buffer.length : Nat) : Int))).1 = Except.ok 3000000000) ∧
    ((18446744073709551615 : Nat) < 18446744073709551616 ∧
      (PacketReader.readUInt64 (PacketReader.mk
        (((PacketWriter.new 0).writeUInt64 18446744073709551615).getData)
        (((PacketWriter.new 0).buffer.length : Nat) : Int))).1 =
        Except.ok 18446744073709551615) ∧
    ((-2147483648 : Int) ≤ -5 ∧ (-5 : Int) < 2147483648 ∧
      (PacketReader.readInt32 (PacketReader.mk ((PacketWriter.new 0).writeInt32 (-5)).getData
        (((PacketWriter.new 0).buffer.length : Nat) : Int))).1 = Except.ok (-5)) ∧
    ((-9223372036854775808 : Int) ≤ -6 ∧ (-6 : Int) < 9223372036854775808 ∧
      (PacketReader.readInt64 (PacketReader.mk ((PacketWriter.new 0).writeInt64 (-6)).getData
        (((PacketWriter.new 0).buffer.length : Nat) : Int))).1 = Except.ok (-6)) ∧
    ((1078530011 : Nat) < 4294967296 ∧
      (PacketReader.readFloat32 (PacketReader.mk
        (((PacketWriter.new 0).writeFloat32 1078530011).getData)
        (((PacketWriter.new 0).buffer.length : Nat) : Int))).1 = Except.ok 1078530011) ∧
    ((4614256656552045848 : Nat) < 18446744073709551616 ∧
      (PacketReader.readFloat64 (PacketReader.mk
        (((PacketWriter.new 0).writeFloat64 4614256656552045848).getData)
        (((PacketWriter.new 0).buffer.length : Nat) : Int))).1 =
        Except.ok 4614256656552045848) ∧
    ((PacketReader.readBool (PacketReader.mk ((PacketWriter.new 0).writeBool true).getData
        (((PacketWriter.new 0).buffer.length : Nat) : Int))).1 = Except.ok true) ∧
    ((∀ c ∈ [72, 128169], ValidScalar c) ∧ (utf8Encode [72, 128169]).length < 65536 ∧
      ([72, 128169] : List Nat).head? ≠ some 65279 ∧
      (PacketReader.readString (PacketReader.mk
        (((PacketWriter.new 0).writeString [72, 128169]).getData)
        (((PacketWriter.new 0).buffer.length : Nat) : Int))).1 = Except.ok [72, 128169]) := by
  obtain ⟨h1, h2, h3, h4, h5, h6, h7, h8, h9, h10⟩ := c1_round_trip (PacketWriter.new 0)
  exact ⟨⟨by norm_num, h1 7 (by norm_num)⟩,
    ⟨by norm_num, h2 40000 (by norm_num)⟩,
    ⟨by norm_num, h3 3000000000 (by norm_num)⟩,
    ⟨by norm_num, h4 18446744073709551615 (by norm_num)⟩,
    ⟨by norm_num, by norm_num, h5 (-5) (by norm_num) (by norm_num)⟩,
    ⟨by norm_num, by norm_num, h6 (-6) (by norm_num) (by norm_num)⟩,
    ⟨by norm_num, h7 1078530011 (by norm_num)⟩,
    ⟨by norm_num, h8 4614256656552045848 (by norm_num)⟩,
    h9 true,
    ⟨by decide, by decide, by decide, h10 [72, 128169] (by decide) (by decide) (by decide)⟩⟩

/-- Claim C5: the concrete scenario — packet id 10001, then the string
of 5 ASCII scalars spelling Hello, then unsigned-32 12345, then boolean
true — yields the expected unframed and framed bytes, and decoding the
payload in the same order yields 10001, the same string, 12345, true,
with the reader complete at the end. -/
theorem c5_concrete_scenario :
    ((((PacketWriter.new 10001).writeString [72, 101, 108, 108, 111]).writeUInt32
        12345).writeBool true).getData =
      [17, 39, 5, 0, 72, 101, 108, 108, 111, 57, 48, 0, 0, 1] ∧
    ((((PacketWriter.new 10001).writeString [72, 101, 108, 108, 111]).writeUInt32
        12345).writeBool true).getBytes =
      [14, 0, 17, 39, 5, 0, 72, 101, 108, 108, 111, 57, 48, 0, 0, 1] ∧
    ((PacketReader.new
        [17, 39, 5, 0, 72, 101, 108, 108, 111, 57, 48, 0, 0, 1]).readUInt16).1 =
      Except.ok 10001 ∧
    (((PacketReader.new
        [17, 39, 5, 0, 72, 101, 108, 108, 111, 57, 48, 0, 0, 1]).readUInt16).2.readString).1 =
      Except.ok [72, 101, 108, 108, 111] ∧
    ((((PacketReader.new
        [17, 39, 5, 0, 72, 101, 108, 108, 111, 57, 48, 0, 0,
          1]).readUInt16).2.readString).2.readUInt32).1 =
      Except.ok 12345 ∧
    (((((PacketReader.new
        [17, 39, 5, 0, 72, 101, 108, 108, 111, 57, 48, 0, 0,
          1]).readUInt16).2.readString).2.readUInt32).2.readBool).1 =
      Except.ok true ∧
    ((((((PacketReader.new
        [17, 39, 5, 0, 72, 101, 108, 108, 111, 57, 48, 0, 0,
          1]).readUInt16).2.readString).2.readUInt32).2.readBool).2).isComplete = true := by
  decide

/-- Claim C4 (amended): for every PacketWriter state the framed output
is exactly 2 bytes longer than the unframed output, and its first 2
bytes decode little-endian to the unframed length reduced modulo
2 ^ 16 — which equals the unframed length exactly whenever that length
is below 65536 (the 16-bit header wraps silently beyond that). -/
theorem c4_amended (w : PacketWriter) :
    (w.getBytes).length = 2 + (w.getData).length ∧
    (w.getBytes).getD 0 0 + 256 * ((w.getBytes).getD 1 0) = (w.getData).length % 65536 ∧
    ((w.getData).length < 65536 →
      (w.getBytes).getD 0 0 + 256 * ((w.getBytes).getD 1 0) = (w.getData).length) := by
  unfold PacketWriter.getBytes PacketWriter.getData
  refine ⟨by simp; omega, ?_, ?_⟩
  · simp only [List.cons_append, List.getD_cons_zero, List.getD_cons_succ,
      and255_eq, Nat.shiftRight_eq_div_pow]
    norm_num
    omega
  · intro h
    simp only [List.cons_append, List.getD_cons_zero, List.getD_cons_succ,
      and255_eq, Nat.shiftRight_eq_div_pow]
    norm_num
    omega

/-- Witness for C4 at a writer with a 2-byte buffer. -/
theorem c4_amended_witness :
    ((PacketWriter.new 5).getBytes).length = 2 + ((PacketWriter.new 5).getData).length ∧
    ((PacketWriter.new 5).getData).length < 65536 ∧
    ((PacketWriter.new 5).getBytes).getD 0 0 +
        256 * (((PacketWriter.new 5).getBytes).getD 1 0) =
      ((PacketWriter.new 5).getData).length := by
  obtain ⟨ha, _, hc⟩ := c4_amended (PacketWriter.new 5)
  exact ⟨ha, by decide, hc (by decide)⟩

/-- Counterexample to C4 as stated: after buffering 65536 bytes
(id bytes plus 65534 raw bytes) the 2-byte header decodes to 0, not to
the unframed length 65536. -/
theorem c4_counterexample :
    ((PacketWriter.new 0).writeBytes (List.replicate 65534 0)).getBytes.getD 0 0 +
        256 * (((PacketWriter.new 0).writeBytes (List.replicate 65534 0)).getBytes.getD 1 0) ≠
      ((PacketWriter.new 0).writeBytes (List.replicate 65534 0)).getData.length := by
  have hb : ((PacketWriter.new 0).writeBytes (List.replicate 65534 0)).buffer.length = 65536 := by
    have h := List.length_replicate 65534 (0 : Nat)
    unfold PacketWriter.new PacketWriter.writeBytes PacketWriter.writeUInt16
    rw [List.length_append, h]
    simp
  have h0 : ((PacketWriter.new 0).writeBytes (List.replicate 65534 0)).getBytes.getD 0 0 = 0 := by
    unfold PacketWriter.getBytes
    rw [List.getD_append _ _ _ _ (by norm_num), List.getD_cons_zero, hb]
    decide
  have h1 : ((PacketWriter.new 0).writeBytes (List.replicate 65534 0)).getBytes.getD 1 0 = 0 := by
    unfold PacketWriter.getBytes
    rw [List.getD_append _ _ _ _ (by norm_num), List.getD_cons_succ, List.getD_cons_zero, hb]
    decide
  have h2 : ((PacketWriter.new 0).writeBytes (List.replicate 65534 0)).getData.length = 65536 :=
    hb
  rw [h0, h1, h2]
  norm_num

/-- Claim C6 (amended): the constructor's entire initial buffer is the
low 16 bits of the packet id in little-endian order (so for ids below
65536 the id itself is serialized exactly as the first two bytes before
any caller-issued write), and getPacketId returns the exact value
captured at construction for every id. -/
theorem c6_amended (pid : Nat) :
    (PacketWriter.new pid).buffer = [pid % 256, pid / 256 % 256] ∧
    pid % 256 + 256 * (pid / 256 % 256) = pid % 65536 ∧
    (pid < 65536 → pid % 256 + 256 * (pid / 256 % 256) = pid) ∧
    (PacketWriter.new pid).getPacketId = pid := by
  refine ⟨?_, by omega, fun h => by omega, rfl⟩
  show ((PacketWriter.mk [] pid).writeUInt16 pid).buffer = _
  rw [writeUInt16_buffer]
  simp

/-- Witness for C6 at id 10001. -/
theorem c6_amended_witness :
    (PacketWriter.new 10001).buffer = [10001 % 256, 10001 / 256 % 256] ∧
    (10001 : Nat) < 65536 ∧ 10001 % 256 + 256 * (10001 / 256 % 256) = 10001 ∧
    (PacketWriter.new 10001).getPacketId = 10001 := by
  obtain ⟨ha, _, hc, hd⟩ := c6_amended 10001
  exact ⟨ha, by norm_num, hc (by norm_num), hd⟩

/-- Counterexample to C6 as stated: for the packet id 70000 the first
two bytes of the buffer decode to 4464 = 70000 mod 2 ^ 16, so the id is
not serialized as the first two bytes, while getPacketId still returns
70000. -/
theorem c6_counterexample :
    (PacketWriter.new 70000).getPacketId = 70000 ∧
    (PacketWriter.new 70000).buffer.getD 0 0 +
        256 * ((PacketWriter.new 70000).buffer.getD 1 0) ≠ 70000 := by
  decide

/-- Claim C7: setOffset with a value outside the closed interval from 0
to data.length raises the invalid-offset error and leaves the cursor
unchanged; with a value inside that interval it sets the cursor to the
value and never fails. -/
theorem c7_set_offset (r : PacketReader) (v : Int) :
    ((v < 0 ∨ v > (r.data.length : Int)) →
      (r.setOffset v).1 = Except.error ("PacketReader: Invalid offset") ∧
        (r.setOffset v).2 = r) ∧
    ((0 ≤ v ∧ v ≤ (r.data.length : Int)) →
      (r.setOffset v).1 = Except.ok () ∧ (r.setOffset v).2 = PacketReader.mk r.data v) := by
  unfold PacketReader.setOffset
  constructor
  · intro hv
    rw [if_pos hv]
    exact ⟨rfl, rfl⟩
  · intro hv
    rw [if_neg (by omega)]
    exact ⟨rfl, rfl⟩

/-- Witness for C7: on a 1-byte reader, setOffset (-1) errors leaving
the cursor alone, setOffset 1 succeeds and moves the cursor. -/
theorem c7_set_offset_witness :
    (((-1 : Int) < 0 ∨ (-1 : Int) > ((PacketReader.new [0]).data.length : Int)) ∧
      ((PacketReader.new [0]).setOffset (-1)).1 =
        Except.error ("PacketReader: Invalid offset") ∧
      ((PacketReader.new [0]).setOffset (-1)).2 = PacketReader.new [0]) ∧
    (((0 : Int) ≤ 1 ∧ (1 : Int) ≤ ((PacketReader.new [0]).data.length : Int)) ∧
      ((PacketReader.new [0]).setOffset 1).1 = Except.ok () ∧
      ((PacketReader.new [0]).setOffset 1).2 = PacketReader.mk (PacketReader.new [0]).data 1) := by
  obtain ⟨ha, hb⟩ := c7_set_offset (PacketReader.new [0]) (-1)
  obtain ⟨hc, hd⟩ := c7_set_offset (PacketReader.new [0]) 1
  exact ⟨⟨by decide, ha (by decide)⟩, ⟨by decide, hd (by decide)⟩⟩

/-- Claim C8: getBytes, getData and getPacketId leave the writer state
(buffer and packetId) untouched, and repeated calls with no intervening
writes return identical results. -/
theorem c8_getters_pure (w : PacketWriter) :
    (w.getBytesS).2 = w ∧ (w.getDataS).2 = w ∧ (w.getPacketIdS).2 = w ∧
    (((w.getBytesS).2).getBytesS).1 = (w.getBytesS).1 ∧
    (((w.getBytesS).2).getDataS).1 = (w.getDataS).1 ∧
    (((w.getDataS).2).getPacketIdS).1 = (w.getPacketIdS).1 :=
  ⟨rfl, rfl, rfl, rfl, rfl, rfl⟩

/-- Counterexample to C2 as stated: on the 2-byte buffer holding the
length prefix 3, readString raises the out-of-data error yet leaves the
cursor advanced by the 2 consumed prefix bytes, not where it was. -/
theorem c2_counterexample :
    isErr ((PacketReader.new [3, 0]).readString).1 = true ∧
      ((PacketReader.new [3, 0]).readString).2.offset ≠ (PacketReader.new [3, 0]).offset := by
  decide

/-- Claim C2 (amended): every fixed-width read, readBool and readBytes
is non-destructive on failure — the whole reader state is unchanged;
readString is non-destructive only when its 2-byte length prefix itself
cannot be read, and when the prefix was consumed but the announced
content overruns the buffer, the failed call leaves the cursor advanced
by exactly those 2 bytes. -/
theorem c2_amended (r : PacketReader) :
    (isErr (r.readUInt8).1 = true → (r.readUInt8).2 = r) ∧
    (isErr (r.readUInt16).1 = true → (r.readUInt16).2 = r) ∧
    (isErr (r.readUInt32).1 = true → (r.readUInt32).2 = r) ∧
    (isErr (r.readUInt64).1 = true → (r.readUInt64).2 = r) ∧
    (isErr (r.readInt32).1 = true → (r.readInt32).2 = r) ∧
    (isErr (r.readInt64).1 = true → (r.readInt64).2 = r) ∧
    (isErr (r.readFloat32).1 = true → (r.readFloat32).2 = r) ∧
    (isErr (r.readFloat64).1 = true → (r.readFloat64).2 = r) ∧
    (isErr (r.readBool).1 = true → (r.readBool).2 = r) ∧
    (∀ n : Int, isErr (r.readBytes n).1 = true → (r.readBytes n).2 = r) ∧
    (isErr (r.readString).1 = true →
      (r.offset + 2 > (r.data.length : Int) ∧ (r.readString).2 = r) ∨
      (r.offset + 2 ≤ (r.data.length : Int) ∧
        (r.readString).2 = PacketReader.mk r.data (r.offset + 2))) := by
  refine ⟨?_, ?_, ?_, ?_, ?_, ?_, ?_, ?_, ?_, ?_, ?_⟩
  · unfold PacketReader.readUInt8
    split_ifs <;> simp [isErr]
  · unfold PacketReader.readUInt16
    split_ifs <;> simp [isErr]
  · unfold PacketReader.readUInt32
    split_ifs <;> simp [isErr]
  · unfold PacketReader.readUInt64
    split_ifs <;> simp [isErr]
  · unfold PacketReader.readInt32
    split_ifs <;> simp [isErr]
  · unfold PacketReader.readInt64
    split_ifs <;> simp [isErr]
  · unfold PacketReader.readFloat32
    split_ifs <;> simp [isErr]
  · unfold PacketReader.readFloat64
    split_ifs <;> simp [isErr]
  · unfold PacketReader.readBool PacketReader.readUInt8
    split_ifs <;> simp [isErr]
  · intro n
    unfold PacketReader.readBytes
    split_ifs <;> simp [isErr]
  · intro h
    unfold PacketReader.readString PacketReader.readUInt16 at h ⊢
    by_cases hc : r.offset + 2 > (r.data.length : Int)
    · rw [if_pos hc] at h ⊢
      exact Or.inl ⟨hc, rfl⟩
    · rw [if_neg hc] at h ⊢
      dsimp only at h ⊢
      split_ifs at h ⊢ with hs
      · exact Or.inr ⟨by omega, rfl⟩
      · simp [isErr] at h

/-- Witness for C2 (amended): a failing readUInt8 on an empty reader
leaves the state unchanged; a readString failing after its prefix on the
buffer holding 3, 0 lands on the cursor-advanced-by-2 branch. -/
theorem c2_amended_witness :
    (isErr ((PacketReader.new []).readUInt8).1 = true ∧
      ((PacketReader.new []).readUInt8).2 = PacketReader.new []) ∧
    (isErr ((PacketReader.new [3, 0]).readString).1 = true ∧
      ((PacketReader.new [3, 0]).offset + 2 > ((PacketReader.new [3, 0]).data.length : Int) ∧
        ((PacketReader.new [3, 0]).readString).2 = PacketReader.new [3, 0] ∨
      (PacketReader.new [3, 0]).offset + 2 ≤ ((PacketReader.new [3, 0]).data.length : Int) ∧
        ((PacketReader.new [3, 0]).readString).2 =
          PacketReader.mk (PacketReader.new [3, 0]).data
            ((PacketReader.new [3, 0]).offset + 2))) := by
  obtain ⟨h1, _, _, _, _, _, _, _, _, _, _⟩ := c2_amended (PacketReader.new [])
  obtain ⟨_, _, _, _, _, _, _, _, _, _, hs⟩ := c2_amended (PacketReader.new [3, 0])
  exact ⟨⟨by decide, h1 (by decide)⟩, ⟨by decide, hs (by decide)⟩⟩

/-- Counterexample to C3 as stated: readBytes with the caller-supplied
length -1 passes the guard (offset - 1 is not greater than the buffer
length), so the cursor drops to -1, violating 0 ≤ offset. -/
theorem c3_counterexample :
    ((PacketReader.new [0]).readBytes (-1)).2.offset = -1 ∧
      ¬(0 ≤ ((PacketReader.new [0]).readBytes (-1)).2.offset) := by
  decide

/-- One reader operation preserves 0 ≤ offset ≤ data.length, provided a
readBytes length is nonnegative; failing calls keep the bound too. -/
theorem stepOp_inv (op : ReaderOp) (r : PacketReader)
    (h : 0 ≤ r.offset ∧ r.offset ≤ (r.data.length : Int)) (hop : opOK op = true) :
    0 ≤ (stepOp op r).offset ∧ (stepOp op r).offset ≤ ((stepOp op r).data.length : Int) := by
  cases op with
  | rUInt8 =>
    simp only [stepOp, PacketReader.readUInt8]
    split_ifs with hc
    · exact h
    · dsimp only
      omega
  | rUInt16 =>
    simp only [stepOp, PacketReader.readUInt16]
    split_ifs with hc
    · exact h
    · dsimp only
      omega
  | rUInt32 =>
    simp only [stepOp, PacketReader.readUInt32]
    split_ifs with hc
    · exact h
    · dsimp only
      omega
  | rUInt64 =>
    simp only [stepOp, PacketReader.readUInt64]
    split_ifs with hc
    · exact h
    · dsimp only
      omega
  | rInt32 =>
    simp only [stepOp, PacketReader.readInt32]
    split_ifs with hc
    all_goals first
      | exact h
      | (dsimp only; omega)
  | rInt64 =>
    simp only [stepOp, PacketReader.readInt64]
    split_ifs with hc
    all_goals first
      | exact h
      | (dsimp only; omega)
  | rFloat32 =>
    simp only [stepOp, PacketReader.readFloat32]
    split_ifs with hc
    · exact h
    · dsimp only
      omega
  | rFloat64 =>
    simp only [stepOp, PacketReader.readFloat64]
    split_ifs with hc
    · exact h
    · dsimp only
      omega
  | rBool =>
    simp only [stepOp, PacketReader.readBool, PacketReader.readUInt8]
    split_ifs with hc
    all_goals first
      | exact h
      | (dsimp only; omega)
  | rString =>
    simp only [stepOp, PacketReader.readString, PacketReader.readUInt16]
    split_ifs with hc
    · dsimp only
      exact h
    · dsimp only
      split_ifs with hs
      · dsimp only
        omega
      · dsimp only
        omega
  | rBytes n =>
    simp only [opOK, decide_eq_true_eq] at hop
    simp only [stepOp, PacketReader.readBytes]
    split_ifs with hc
    · exact h
    · dsimp only
      omega
  | rReset =>
    simp only [stepOp, PacketReader.reset]
    omega
  | rSetOffset v =>
    simp only [stepOp, PacketReader.setOffset]
    split_ifs with hc
    · exact h
    · dsimp only
      omega

/-- Claim C3 (amended): for every sequence of reader operations in which
every caller-supplied readBytes length is nonnegative, the invariant
0 ≤ offset ≤ data.length holds after each operation, including failing
ones (readString may consume its 2-byte prefix before failing, staying
within bounds); with a negative readBytes length the guard passes and
the cursor leaves the interval. -/
theorem c3_amended (l : List ReaderOp) (r : PacketReader)
    (h0 : 0 ≤ r.offset ∧ r.offset ≤ (r.data.length : Int))
    (hops : ∀ op ∈ l, opOK op = true) :
    0 ≤ (l.foldl (fun s op => stepOp op s) r).offset ∧
      (l.foldl (fun s op => stepOp op s) r).offset ≤
        ((l.foldl (fun s op => stepOp op s) r).data.length : Int) := by
  induction l generalizing r with
  | nil => simpa using h0
  | cons op l ih =>
    simp only [List.foldl_cons]
    exact ih (stepOp op r) (stepOp_inv op r h0 (hops op (by simp)))
      (fun o ho => hops o (by simp [ho]))

/-- Witness for C3 (amended): a mixed sequence of reads, a readBytes of
length 1, a reset and a setOffset on a 3-byte buffer keeps the cursor in
bounds. -/
theorem c3_amended_witness :
    (0 ≤ (PacketReader.new [5, 0, 65]).offset ∧
      (PacketReader.new [5, 0, 65]).offset ≤ (((PacketReader.new [5, 0, 65]).data.length : Nat) : Int)) ∧
    (∀ op ∈ [ReaderOp.rUInt8, ReaderOp.rBytes 1, ReaderOp.rString, ReaderOp.rReset,
        ReaderOp.rSetOffset 2], opOK op = true) ∧
    (0 ≤ ([ReaderOp.rUInt8, ReaderOp.rBytes 1, ReaderOp.rString, ReaderOp.rReset,
        ReaderOp.rSetOffset 2].foldl (fun s op => stepOp op s)
          (PacketReader.new [5, 0, 65])).offset ∧
      ([ReaderOp.rUInt8, ReaderOp.rBytes 1, ReaderOp.rString, ReaderOp.rReset,
        ReaderOp.rSetOffset 2].foldl (fun s op => stepOp op s)
          (PacketReader.new [5, 0, 65])).offset ≤
        ((([ReaderOp.rUInt8, ReaderOp.rBytes 1, ReaderOp.rString, ReaderOp.rReset,
          ReaderOp.rSetOffset 2].foldl (fun s op => stepOp op s)
            (PacketReader.new [5, 0, 65])).data.length : Nat) : Int)) :=
  ⟨by decide, by decide,
    c3_amended [ReaderOp.rUInt8, ReaderOp.rBytes 1, ReaderOp.rString, ReaderOp.rReset,
      ReaderOp.rSetOffset 2] (PacketReader.new [5, 0, 65]) (by decide) (by decide)⟩

/-- Counterexample to C9 as stated: a failing boolean read does not
report that a boolean was requested — it raises readUInt8's error,
verbatim the same error a failing UInt8 read produces. -/
theorem c9_counterexample :
    ((PacketReader.new []).readBool).1 =
        Except.error ("PacketReader: Not enough data to read UInt8") ∧
      ((PacketReader.new []).readBool).1 = ((PacketReader.new []).readUInt8).1 := by
  decide

/-- Claim C9 (amended): every direct fixed-width read and readBytes
report their own logical type in the out-of-data error; a failing
readString reports UInt16 exactly when it fails at its 2-byte length
prefix (fewer than 2 bytes remain) and reports string exactly when it
fails at the content stage (the prefix was readable); but readBool
reports UInt8, the error of the underlying 1-byte read it delegates
to. -/
theorem c9_amended (r : PacketReader) :
    (∀ e, (r.readUInt8).1 = Except.error e →
      e = "PacketReader: Not enough data to read UInt8") ∧
    (∀ e, (r.readUInt16).1 = Except.error e →
      e = "PacketReader: Not enough data to read UInt16") ∧
    (∀ e, (r.readUInt32).1 = Except.error e →
      e = "PacketReader: Not enough data to read UInt32") ∧
    (∀ e, (r.readUInt64).1 = Except.error e →
      e = "PacketReader: Not enough data to read UInt64") ∧
    (∀ e, (r.readInt32).1 = Except.error e →
      e = "PacketReader: Not enough data to read Int32") ∧
    (∀ e, (r.readInt64).1 = Except.error e →
      e = "PacketReader: Not enough data to read Int64") ∧
    (∀ e, (r.readFloat32).1 = Except.error e →
      e = "PacketReader: Not enough data to read Float32") ∧
    (∀ e, (r.readFloat64).1 = Except.error e →
      e = "PacketReader: Not enough data to read Float64") ∧
    (∀ n e, (r.readBytes n).1 = Except.error e →
      e = "PacketReader: Not enough data to read bytes") ∧
    (∀ e, (r.readBool).1 = Except.error e →
      e = "PacketReader: Not enough data to read UInt8") ∧
    (∀ e, (r.readString).1 = Except.error e →
      (r.offset + 2 > (r.data.length : Int) ∧
        e = "PacketReader: Not enough data to read UInt16") ∨
      (r.offset + 2 ≤ (r.data.length : Int) ∧
        e = "PacketReader: Not enough data to read string")) := by
  refine ⟨?_, ?_, ?_, ?_, ?_, ?_, ?_, ?_, ?_, ?_, ?_⟩
  · intro e he
    unfold PacketReader.readUInt8 at he
    split_ifs at he
    simp_all
  · intro e he
    unfold PacketReader.readUInt16 at he
    split_ifs at he
    simp_all
  · intro e he
    unfold PacketReader.readUInt32 at he
    split_ifs at he
    simp_all
  · intro e he
    unfold PacketReader.readUInt64 at he
    split_ifs at he
    simp_all
  · intro e he
    unfold PacketReader.readInt32 at he
    split_ifs at he
    simp_all
  · intro e he
    unfold PacketReader.readInt64 at he
    split_ifs at he
    simp_all
  · intro e he
    unfold PacketReader.readFloat32 at he
    split_ifs at he
    simp_all
  · intro e he
    unfold PacketReader.readFloat64 at he
    split_ifs at he
    simp_all
  · intro n e he
    unfold PacketReader.readBytes at he
    split_ifs at he
    simp_all
  · intro e he
    unfold PacketReader.readBool PacketReader.readUInt8 at he
    split_ifs at he
    simp_all
  · intro e he
    unfold PacketReader.readString PacketReader.readUInt16 at he
    by_cases hc : r.offset + 2 > (r.data.length : Int)
    · rw [if_pos hc] at he
      dsimp only at he
      simp at he
      exact Or.inl ⟨hc, he.symm⟩
    · rw [if_neg hc] at he
      dsimp only at he
      split_ifs at he with hs
      · simp at he
        exact Or.inr ⟨by omega, he.symm⟩

/-- Witness for C9 (amended): a failing readUInt16 on an empty reader
reports UInt16; a readString on an empty reader fails at the prefix
stage and reports UInt16; a readString on the 2-byte buffer holding the
length prefix 3 fails at the content stage and reports string. -/
theorem c9_amended_witness :
    (((PacketReader.new []).readUInt16).1 =
        Except.error ("PacketReader: Not enough data to read UInt16") ∧
      ("PacketReader: Not enough data to read UInt16" : String) =
        "PacketReader: Not enough data to read UInt16") ∧
    (((PacketReader.new []).readString).1 =
        Except.error ("PacketReader: Not enough data to read UInt16") ∧
      (((PacketReader.new []).offset + 2 > ((PacketReader.new []).data.length : Int) ∧
          ("PacketReader: Not enough data to read UInt16" : String) =
            "PacketReader: Not enough data to read UInt16") ∨
        ((PacketReader.new []).offset + 2 ≤ ((PacketReader.new []).data.length : Int) ∧
          ("PacketReader: Not enough data to read UInt16" : String) =
            "PacketReader: Not enough data to read string"))) ∧
    (((PacketReader.new [3, 0]).readString).1 =
        Except.error ("PacketReader: Not enough data to read string") ∧
      (((PacketReader.new [3, 0]).offset + 2 >
            ((PacketReader.new [3, 0]).data.length : Int) ∧
          ("PacketReader: Not enough data to read string" : String) =
            "PacketReader: Not enough data to read UInt16") ∨
        ((PacketReader.new [3, 0]).offset + 2 ≤
            ((PacketReader.new [3, 0]).data.length : Int) ∧
          ("PacketReader: Not enough data to read string" : String) =
            "PacketReader: Not enough data to read string"))) := by
  obtain ⟨_, h16, _, _, _, _, _, _, _, _, hstrA⟩ := c9_amended (PacketReader.new [])
  obtain ⟨_, _, _, _, _, _, _, _, _, _, hstrB⟩ := c9_amended (PacketReader.new [3, 0])
  exact ⟨⟨by decide, h16 _ (by decide)⟩, ⟨by decide, hstrA _ (by decide)⟩,
    ⟨by decide, hstrB _ (by decide)⟩⟩

/-- Claim C10: for every string whose UTF-8 encoding is 65536 bytes or
longer, writeString silently writes the length prefix reduced modulo
2 ^ 16 while still appending all the UTF-8 bytes, so the subsequent
readString (which consumes only the announced byte count) cannot
reproduce the original string — the string round-trip holds only up to
65535 UTF-8 bytes. -/
theorem c10_long_string (s : List Nat) (hv : ∀ c ∈ s, ValidScalar c)
    (hL : 65536 ≤ (utf8Encode s).length) :
    (∀ w : PacketWriter, (w.writeString s).buffer = w.buffer ++
      ([(utf8Encode s).length % 256, (utf8Encode s).length / 256 % 256] ++ utf8Encode s)) ∧
    (utf8Encode s).length % 256 + 256 * ((utf8Encode s).length / 256 % 256) =
      (utf8Encode s).length % 65536 ∧
    (∀ w : PacketWriter,
      (PacketReader.readString
        (PacketReader.mk (w.writeString s).buffer (w.buffer.length : Int))).1 ≠
        Except.ok s) := by
  refine ⟨fun w => writeString_buffer w s, by omega, fun w => ?_⟩
  rw [writeString_buffer w s, readString_at w.buffer (utf8Encode s)]
  intro hcontra
  have hdec : utf8Decode ((utf8Encode s).take ((utf8Encode s).length % 65536)) = s := by
    simpa using hcontra
  exact utf8Decode_take_ne s hv hL hdec

theorem utf8Encode_replicate_a (n : Nat) :
    utf8Encode (List.replicate n 97) = List.replicate n 97 := by
  induction n with
  | zero => rfl
  | succ k ih =>
    rw [List.replicate_succ]
    rw [utf8Encode, ih]
    rw [show utf8EncodeChar 97 = [97] by decide]
    rfl

/-- Witness for C10: the string of 65536 ASCII characters (scalar 97)
encodes to 65536 bytes, and reading it back from a fresh writer does not
return it. -/
theorem c10_long_string_witness :
    (∀ c ∈ List.replicate 65536 97, ValidScalar c) ∧
    65536 ≤ (utf8Encode (List.replicate 65536 97)).length ∧
    (PacketReader.readString
      (PacketReader.mk ((PacketWriter.new 0).writeString (List.replicate 65536 97)).buffer
        (((PacketWriter.new 0).buffer.length : Nat) : Int))).1 ≠
      Except.ok (List.replicate 65536 97) := by
  have hv : ∀ c ∈ List.replicate 65536 97, ValidScalar c := by
    intro c hc
    rw [List.eq_of_mem_replicate hc]
    decide
  have hL : 65536 ≤ (utf8Encode (List.replicate 65536 97)).length := by
    rw [utf8Encode_replicate_a, List.length_replicate]
  exact ⟨hv, hL, (c10_long_string (List.replicate 65536 97) hv hL).2.2 (PacketWriter.new 0)⟩
